import Mathlib

/-!
Verification development for the PaySystem repository: a shallow embedding of
the transactional core (accounts, orders, ledger, outbox) and its operations
(pay, refund, recharge, cancel, compensation job, outbox relay), together with
theorems settling the specification claims.

The embedding is sequential: each service call runs to completion against an
explicit database value.  SQL conditional updates (`UPDATE ... WHERE ...`)
become a map over the row list that rewrites exactly the rows matching the
WHERE predicate; a zero-rows-affected outcome corresponds to no row matching.
Monetary values are `Int` (Go `int64`); timestamps are `Int` seconds.
-/

/-! ## Status and type constants (internal/model/order.go, account.go, outbox.go) -/

def OrderStatusCreated : String := "CREATED"

def OrderStatusPaying : String := "PAYING"

def OrderStatusPaid : String := "PAID"

def OrderStatusFailed : String := "FAILED"

def OrderStatusClosed : String := "CLOSED"

def OrderStatusCancelled : String := "CANCELLED"

def OrderStatusRefunding : String := "REFUNDING"

def OrderStatusRefunded : String := "REFUNDED"

def TransactionTypeRecharge : String := "RECHARGE"

def TransactionTypePay : String := "PAY"

def TransactionTypeRefund : String := "REFUND"

def OutboxStatusPending : String := "PENDING"

def OutboxStatusSent : String := "SENT"

def OutboxStatusFailed : String := "FAILED"

/-! ## Row types (internal/model) -/

/-- Account row (model/account.go).  `frozenAmount` is reserved and never
mutated by any operation in the repository. -/
structure Account where
  userId : Int
  balance : Int
  frozenAmount : Int
  version : Int
  deriving DecidableEq, Repr

/-- Order row (model/order.go).  `expiredAt`, `createdAt` are seconds;
`paidAt` is set by the guarded transition when the target status is PAID. -/
structure PayOrder where
  orderNo : String
  requestId : String
  userId : Int
  amount : Int
  productType : String
  productId : String
  status : String
  expiredAt : Int
  paidAt : Option Int
  createdAt : Int
  deriving DecidableEq, Repr

/-- Ledger row (model/transaction.go): append-only account transaction. -/
structure AccountTransaction where
  transactionNo : String
  userId : Int
  orderNo : String
  amount : Int
  ttype : String
  balanceBefore : Int
  balanceAfter : Int
  remark : String
  deriving DecidableEq, Repr

/-- Outbox row (model/outbox.go). -/
structure OutboxMessage where
  id : Int
  messageKey : String
  topic : String
  payload : String
  status : String
  retryCount : Int
  deriving DecidableEq, Repr

/-- The four persisted tables.  Lists are in primary-key (insertion) order,
matching `First` without an ORDER BY and `created_at ASC` scans. -/
structure DB where
  accounts : List Account
  orders : List PayOrder
  transactions : List AccountTransaction
  outbox : List OutboxMessage
  deriving DecidableEq, Repr

/-- A SQL `UPDATE ... SET (f) WHERE (q)`: rewrite every row matching `q`. -/
def updWhere (q : α → Bool) (f : α → α) (l : List α) : List α :=
  l.map fun x => if q x then f x else x

/-! ## Error values surfaced by repositories and services -/

inductive Err where
  | orderNotFound
  | orderStatusInvalid
  | accountNotFound
  | balanceNotEnough
  | optimisticLock
  | busy
  | invalidOrderStatus (current : String)
  | invalidRechargeAmount
  deriving DecidableEq, Repr

/-! ## Order state machine (internal/model/order.go) -/

/-- The `ValidStatusTransitions` map: allowed target statuses per source. -/
def ValidStatusTransitions (s : String) : Option (List String) :=
  if s = OrderStatusCreated then
    some [OrderStatusPaying, OrderStatusClosed, OrderStatusCancelled]
  else if s = OrderStatusPaying then some [OrderStatusPaid, OrderStatusFailed]
  else if s = OrderStatusPaid then some [OrderStatusRefunding]
  else if s = OrderStatusRefunding then some [OrderStatusRefunded]
  else none

/-- `CanTransitionTo(currentStatus, targetStatus)`. -/
def CanTransitionTo (currentStatus targetStatus : String) : Bool :=
  match ValidStatusTransitions currentStatus with
  | none => false
  | some allowed => allowed.contains targetStatus

/-! ## Order repository (repository/order_repository.go) -/

/-- `OrderRepository.GetByOrderNo`: `First` on `order_no = ?`. -/
def GetByOrderNo (orders : List PayOrder) (orderNo : String) :
    Except Err PayOrder :=
  match orders.find? (fun o => o.orderNo == orderNo) with
  | some o => .ok o
  | none => .error .orderNotFound

/-- `OrderRepository.GetByRequestID`: `First` on `request_id = ?`; a missing
row is reported as `nil, nil`, modelled by `none`. -/
def GetByRequestID (orders : List PayOrder) (requestId : String) :
    Option PayOrder :=
  orders.find? (fun o => o.requestId == requestId)

/-- `OrderRepository.UpdateStatus`: reject pairs outside the transition table,
then `UPDATE pay_order SET status = to WHERE order_no = ? AND status = from`;
zero rows affected is `ErrOrderStatusInvalid`.  `paid_at` is set when the
target status is PAID. -/
def UpdateStatus (orders : List PayOrder) (now : Int)
    (orderNo fromStatus toStatus : String) : Except Err (List PayOrder) :=
  if !CanTransitionTo fromStatus toStatus then .error .orderStatusInvalid
  else
    let q := fun (o : PayOrder) => o.orderNo == orderNo && o.status == fromStatus
    if orders.any q then
      .ok (updWhere q
        (fun o =>
          { o with
            status := toStatus
            paidAt := if toStatus == OrderStatusPaid then some now else o.paidAt })
        orders)
    else .error .orderStatusInvalid

/-! ## Account repository (repository/account_repository.go) -/

/-- `AccountRepository.GetByUserID`. -/
def GetByUserID (accounts : List Account) (userId : Int) : Except Err Account :=
  match accounts.find? (fun a => a.userId == userId) with
  | some a => .ok a
  | none => .error .accountNotFound

/-- `AccountRepository.Deduct`: conditional debit
`UPDATE account SET balance = balance - ?, version = version + 1
 WHERE user_id = ? AND balance >= ? AND version = ?`; on zero rows affected,
re-read the row and distinguish insufficient balance from a version conflict. -/
def Deduct (accounts : List Account) (userId amount : Int) (version : Int) :
    Except Err (List Account) :=
  let q := fun (a : Account) =>
    a.userId == userId && a.balance >= amount && a.version == version
  if accounts.any q then
    .ok (updWhere q
      (fun a => { a with balance := a.balance - amount, version := a.version + 1 })
      accounts)
  else
    match GetByUserID accounts userId with
    | .error e => .error e
    | .ok a => if a.balance < amount then .error .balanceNotEnough
               else .error .optimisticLock

/-- `AccountRepository.Increase`: unconditional credit
`UPDATE account SET balance = balance + ?, version = version + 1
 WHERE user_id = ?`; zero rows affected is `ErrAccountNotFound`. -/
def Increase (accounts : List Account) (userId amount : Int) :
    Except Err (List Account) :=
  let q := fun (a : Account) => a.userId == userId
  if accounts.any q then
    .ok (updWhere q
      (fun a => { a with balance := a.balance + amount, version := a.version + 1 })
      accounts)
  else .error .accountNotFound

/-- `AccountRepository.GetOrCreate`: read; if absent, insert a fresh row with
balance 0 (gorm defaults: frozen 0, version 0) and re-read. -/
def GetOrCreate (accounts : List Account) (userId : Int) :
    Account × List Account :=
  match accounts.find? (fun a => a.userId == userId) with
  | some a => (a, accounts)
  | none =>
    let newAccount : Account :=
      { userId := userId, balance := 0, frozenAmount := 0, version := 0 }
    (newAccount, accounts ++ [newAccount])

/-! ## Transaction (ledger) repository (repository/transaction_repository.go) -/

/-- `TransactionRepository.GetByOrderNo`: `First` on `order_no = ?`;
missing row modelled by `none`. -/
def TxnGetByOrderNo (transactions : List AccountTransaction) (orderNo : String) :
    Option AccountTransaction :=
  transactions.find? (fun t => t.orderNo == orderNo)

/-- `TransactionRepository.GetByUserIDAndOrderNo`. -/
def GetByUserIDAndOrderNo (transactions : List AccountTransaction)
    (userId : Int) (orderNo : String) : Option AccountTransaction :=
  transactions.find? (fun t => t.userId == userId && t.orderNo == orderNo)

/-! ## Outbox repository (repository/outbox_repository.go) -/

/-- Auto-increment primary key for a fresh outbox row. -/
def nextOutboxId (outbox : List OutboxMessage) : Int :=
  (outbox.foldl (fun m x => max m x.id) 0) + 1

/-- `OutboxRepository.GetPendingMessages`: PENDING rows, creation order, limited. -/
def GetPendingMessages (outbox : List OutboxMessage) (limit : Nat) :
    List OutboxMessage :=
  (outbox.filter (fun m => m.status == OutboxStatusPending)).take limit

/-- `OutboxRepository.UpdateStatus`. -/
def OutboxUpdateStatus (outbox : List OutboxMessage) (id : Int)
    (status : String) : List OutboxMessage :=
  updWhere (fun m => m.id == id) (fun m => { m with status := status }) outbox

/-- `OutboxRepository.IncrementRetryCount`:
`UPDATE outbox_message SET retry_count = retry_count + 1 WHERE id = ?`. -/
def IncrementRetryCount (outbox : List OutboxMessage) (id : Int) :
    List OutboxMessage :=
  updWhere (fun m => m.id == id)
    (fun m => { m with retryCount := m.retryCount + 1 }) outbox

/-- `OutboxRepository.MarkAsFailed`: sets status FAILED and also increments
`retry_count` once more in the same UPDATE. -/
def MarkAsFailed (outbox : List OutboxMessage) (id : Int) :
    List OutboxMessage :=
  updWhere (fun m => m.id == id)
    (fun m => { m with status := OutboxStatusFailed, retryCount := m.retryCount + 1 })
    outbox

/-! ## Pay service (internal/service/pay_service.go) -/

structure PayRequest where
  requestId : String
  userId : Int
  amount : Int
  productType : String
  productId : String
  deriving DecidableEq, Repr

structure PayResponse where
  orderNo : String
  status : String
  amount : Int
  message : String
  deriving DecidableEq, Repr

/-- Payload written to the outbox for a paid order.  The JSON serialization is
opaque to every claim; it is modelled as a tagged string keyed by order number. -/
def payResultPayload (orderNo : String) : String :=
  "pay_result:" ++ orderNo

/-- The store transaction inside `PayService.Pay` (steps 5.a–5.f): insert the
order as CREATED, guarded transition CREATED→PAYING, conditional debit against
the pre-read snapshot version, append the PAY ledger row with the snapshot
before/after, guarded transition PAYING→PAID, stage the outbox row.  Any error
aborts with no state change (rollback). -/
def PayTx (db : DB) (account : Account) (req : PayRequest)
    (orderNo txnNo : String) (now timeoutMinutes : Int) (topic : String) :
    Except Err DB :=
  let order : PayOrder :=
    { orderNo := orderNo, requestId := req.requestId, userId := req.userId
      amount := req.amount, productType := req.productType
      productId := req.productId, status := OrderStatusCreated
      expiredAt := now + timeoutMinutes * 60, paidAt := none, createdAt := now }
  let orders0 := db.orders ++ [order]
  match UpdateStatus orders0 now orderNo OrderStatusCreated OrderStatusPaying with
  | .error e => .error e
  | .ok orders1 =>
    match Deduct db.accounts req.userId req.amount account.version with
    | .error .balanceNotEnough => .error .balanceNotEnough
    | .error .optimisticLock => .error .busy
    | .error e => .error e
    | .ok accounts1 =>
      let txn : AccountTransaction :=
        { transactionNo := txnNo, userId := req.userId, orderNo := orderNo
          amount := -req.amount, ttype := TransactionTypePay
          balanceBefore := account.balance
          balanceAfter := account.balance - req.amount
          remark := "支付-" ++ req.productType ++ "-" ++ req.productId }
      match UpdateStatus orders1 now orderNo OrderStatusPaying OrderStatusPaid with
      | .error e => .error e
      | .ok orders2 =>
        let msg : OutboxMessage :=
          { id := nextOutboxId db.outbox, messageKey := orderNo, topic := topic
            payload := payResultPayload orderNo, status := OutboxStatusPending
            retryCount := 0 }
        .ok { db with
              accounts := accounts1, orders := orders2
              transactions := db.transactions ++ [txn]
              outbox := db.outbox ++ [msg] }

/-- `PayService.Pay`.  The generated order/transaction numbers and the clock
are parameters; the distributed lock always succeeds in the sequential model
and the returned `Bool` records whether execution reached the lock
acquisition (false exactly when the unlocked idempotency pre-check replied). -/
def Pay (db : DB) (req : PayRequest) (orderNo txnNo : String)
    (now timeoutMinutes : Int) (topic : String) :
    Except Err PayResponse × DB × Bool :=
  match GetByRequestID db.orders req.requestId with
  | some o => (.ok ⟨o.orderNo, o.status, o.amount, "订单已存在"⟩, db, false)
  | none =>
    -- distributed lock acquired; re-check idempotency under the lock
    match GetByRequestID db.orders req.requestId with
    | some o => (.ok ⟨o.orderNo, o.status, o.amount, "订单已存在"⟩, db, true)
    | none =>
      let (account, accounts1) := GetOrCreate db.accounts req.userId
      let db1 : DB := { db with accounts := accounts1 }
      if account.balance < req.amount then (.error .balanceNotEnough, db1, true)
      else
        match PayTx db1 account req orderNo txnNo now timeoutMinutes topic with
        | .error e => (.error e, db1, true)
        | .ok db2 =>
          (.ok ⟨orderNo, OrderStatusPaid, req.amount, "支付成功"⟩, db2, true)

/-! ## Refund service (internal/service/refund_service.go) -/

structure RefundRequest where
  requestId : String
  orderNo : String
  reason : String
  deriving DecidableEq, Repr

structure RefundResponse where
  refundNo : String
  orderNo : String
  amount : Int
  status : String
  message : String
  deriving DecidableEq, Repr

/-- Payload written to the outbox for a refunded order (opaque serialization). -/
def refundResultPayload (refundNo : String) : String :=
  "refund_result:" ++ refundNo

/-- The store transaction inside `RefundService.Refund` (steps 5.a–5.f):
guarded transition PAID→REFUNDING, non-locking account read for the ledger
snapshot, unconditional credit of the order amount, append the REFUND ledger
row, guarded transition REFUNDING→REFUNDED, stage the outbox row. -/
def RefundTx (db : DB) (order : PayOrder) (req : RefundRequest)
    (refundNo txnNo : String) (now : Int) (topic : String) : Except Err DB :=
  match UpdateStatus db.orders now req.orderNo OrderStatusPaid OrderStatusRefunding with
  | .error e => .error e
  | .ok orders1 =>
    match GetByUserID db.accounts order.userId with
    | .error e => .error e
    | .ok account =>
      match Increase db.accounts order.userId order.amount with
      | .error e => .error e
      | .ok accounts1 =>
        let txn : AccountTransaction :=
          { transactionNo := txnNo, userId := order.userId
            orderNo := req.orderNo, amount := order.amount
            ttype := TransactionTypeRefund
            balanceBefore := account.balance
            balanceAfter := account.balance + order.amount
            remark := "退款-" ++ refundNo ++ "-" ++ req.reason }
        match UpdateStatus orders1 now req.orderNo OrderStatusRefunding OrderStatusRefunded with
        | .error e => .error e
        | .ok orders2 =>
          let msg : OutboxMessage :=
            { id := nextOutboxId db.outbox, messageKey := refundNo
              topic := topic, payload := refundResultPayload refundNo
              status := OutboxStatusPending, retryCount := 0 }
          .ok { db with
                accounts := accounts1, orders := orders2
                transactions := db.transactions ++ [txn]
                outbox := db.outbox ++ [msg] }

/-- The portion of `RefundService.Refund` that runs after the distributed lock
is acquired: re-read the order, report a missing order, replay the refunded
result when the status is already REFUNDED, reject any other non-PAID status,
otherwise run the refund transaction. -/
def RefundPostLock (db : DB) (req : RefundRequest) (refundNo txnNo : String)
    (now : Int) (topic : String) : Except Err RefundResponse × DB :=
  match GetByOrderNo db.orders req.orderNo with
  | .error e => (.error e, db)
  | .ok order =>
    if order.status != OrderStatusPaid then
      if order.status == OrderStatusRefunded then
        (.ok ⟨"", order.orderNo, order.amount, OrderStatusRefunded,
              "已退款，请勿重复操作"⟩, db)
      else (.error (.invalidOrderStatus order.status), db)
    else
      match RefundTx db order req refundNo txnNo now topic with
      | .error e => (.error e, db)
      | .ok db2 =>
        (.ok ⟨refundNo, req.orderNo, order.amount, OrderStatusRefunded,
              "退款成功"⟩, db2)

/-- `RefundService.Refund`: pre-lock order read and status check (no REFUNDED
exception here), pre-lock ledger check replaying an existing REFUND row, then
the locked section.  The `Bool` records whether the lock was acquired. -/
def Refund (db : DB) (req : RefundRequest) (refundNo txnNo : String)
    (now : Int) (topic : String) : Except Err RefundResponse × DB × Bool :=
  match GetByOrderNo db.orders req.orderNo with
  | .error e => (.error e, db, false)
  | .ok order =>
    if order.status != OrderStatusPaid then
      (.error (.invalidOrderStatus order.status), db, false)
    else
      let idempotentReplay :=
        match GetByUserIDAndOrderNo db.transactions order.userId req.orderNo with
        | some t => t.ttype == TransactionTypeRefund
        | none => false
      if idempotentReplay then
        (.ok ⟨"", order.orderNo, order.amount, OrderStatusRefunded,
              "已退款，请勿重复操作"⟩, db, false)
      else
        match RefundPostLock db req refundNo txnNo now topic with
        | (r, db1) => (r, db1, true)

/-! ## Account service (internal/service/account_service.go) -/

/-- `AccountService.Recharge`: reject non-positive amounts, ensure the account
row exists (committed even if the credit then fails), credit the amount.
No ledger row is appended. -/
def Recharge (db : DB) (userId amount : Int) : Except Err Unit × DB :=
  if amount ≤ 0 then (.error .invalidRechargeAmount, db)
  else
    let (_, accounts1) := GetOrCreate db.accounts userId
    match Increase accounts1 userId amount with
    | .error e => (.error e, { db with accounts := accounts1 })
    | .ok accounts2 => (.ok (), { db with accounts := accounts2 })

/-! ## Order service (internal/service/order_service.go) -/

/-- `OrderService.CancelOrder`: read the order, then request the guarded
transition from its current status to CANCELLED. -/
def CancelOrder (db : DB) (orderNo : String) (now : Int) :
    Except Err Unit × DB :=
  match GetByOrderNo db.orders orderNo with
  | .error e => (.error e, db)
  | .ok order =>
    match UpdateStatus db.orders now orderNo order.status OrderStatusCancelled with
    | .error e => (.error e, db)
    | .ok orders1 => (.ok (), { db with orders := orders1 })

/-! ## Compensation job (internal/job/order_timeout.go) -/

/-- The timeout arm of `compensateOrder`: if the order was created longer ago
than the configured order timeout, drive PAYING→FAILED (errors are logged and
ignored), else leave the store untouched. -/
def compensateTimeout (db : DB) (order : PayOrder) (now timeoutMinutes : Int) : DB :=
  if now - order.createdAt > timeoutMinutes * 60 then
    match UpdateStatus db.orders now order.orderNo OrderStatusPaying OrderStatusFailed with
    | .ok orders1 => { db with orders := orders1 }
    | .error _ => db
  else db

/-- `PayingOrderCompensateJob.compensateOrder`: look up the ledger row for the
order number; if one exists and is a PAY row, drive PAYING→PAID; otherwise
fall through to the timeout arm. -/
def compensateOrder (db : DB) (order : PayOrder) (now timeoutMinutes : Int) : DB :=
  match TxnGetByOrderNo db.transactions order.orderNo with
  | some ledgerRow =>
    if ledgerRow.ttype == TransactionTypePay then
      match UpdateStatus db.orders now order.orderNo OrderStatusPaying OrderStatusPaid with
      | .ok orders1 => { db with orders := orders1 }
      | .error _ => db
    else compensateTimeout db order now timeoutMinutes
  | none => compensateTimeout db order now timeoutMinutes

/-! ## Outbox relay (internal/job/outbox_sender.go) -/

/-- `OutboxSender.sendMessage`: publish outcome is a parameter.  On success,
mark SENT.  On failure, increment the retry count; if the in-memory count plus
one has reached the configured maximum, additionally mark the row FAILED
(an update that increments the stored retry count once more). -/
def sendMessage (outbox : List OutboxMessage) (msg : OutboxMessage)
    (publishOk : Bool) (maxRetryCount : Int) : List OutboxMessage :=
  if publishOk then OutboxUpdateStatus outbox msg.id OutboxStatusSent
  else
    let outbox1 := IncrementRetryCount outbox msg.id
    if msg.retryCount + 1 ≥ maxRetryCount then MarkAsFailed outbox1 msg.id
    else outbox1

/-! ## Observations -/

/-- Balance of a user in an account table (0 when absent, matching
`AccountService.GetBalance`). -/
def balanceOfA (accounts : List Account) (u : Int) : Int :=
  match accounts.find? (fun a => a.userId == u) with
  | some a => a.balance
  | none => 0

/-- Balance of a user as read through `GetByUserID`. -/
def balanceOf (db : DB) (u : Int) : Int :=
  balanceOfA db.accounts u

/-- Sum of the ledger amounts of one user over a transaction table. -/
def ledgerSumL (transactions : List AccountTransaction) (u : Int) : Int :=
  ((transactions.filter (fun t => t.userId == u)).map (fun t => t.amount)).sum

/-- Sum of the ledger amounts of one user. -/
def ledgerSum (db : DB) (u : Int) : Int :=
  ledgerSumL db.transactions u

/-- Status of the first stored order row with the given number. -/
def orderStatusOf (db : DB) (orderNo : String) : Option String :=
  (db.orders.find? (fun o => o.orderNo == orderNo)).map (fun o => o.status)

/-! ## Operation sequences -/

/-- One client-visible balance-affecting operation, with the identifiers and
clock values it consumed. -/
inductive SysOp where
  | payOp (req : PayRequest) (orderNo txnNo : String)
      (now timeoutMinutes : Int) (topic : String)
  | refundOp (req : RefundRequest) (refundNo txnNo : String)
      (now : Int) (topic : String)
  | rechargeOp (userId amount : Int)
  deriving Repr

/-- Run one operation, keeping only the store state. -/
def applySysOp (db : DB) (op : SysOp) : DB :=
  match op with
  | .payOp req orderNo txnNo now tm topic =>
    (Pay db req orderNo txnNo now tm topic).2.1
  | .refundOp req refundNo txnNo now topic =>
    (Refund db req refundNo txnNo now topic).2.1
  | .rechargeOp userId amount => (Recharge db userId amount).2

def applySysOps (db : DB) (ops : List SysOp) : DB :=
  ops.foldl applySysOp db

/-- Credits applied to a user's balance by the recharge operations of a
sequence: a recharge succeeds exactly when its amount is positive. -/
def rechargeCredits (ops : List SysOp) (u : Int) : Int :=
  (ops.map fun op =>
    match op with
    | .rechargeOp userId amount =>
      if userId == u && amount > 0 then amount else 0
    | _ => 0).sum

/-! ## Account-level operation sequences (for the account invariant) -/

/-- One account-store operation, as invoked by the services. -/
inductive AccountOp where
  | deductOp (userId amount version : Int)
  | increaseOp (userId amount : Int)
  | getOrCreateOp (userId : Int)
  | rechargeOp (userId amount : Int)
  deriving Repr

/-- Run one account operation, keeping the table unchanged on error. -/
def applyAccountOp (accounts : List Account) (op : AccountOp) : List Account :=
  match op with
  | .deductOp u a v =>
    match Deduct accounts u a v with
    | .ok l => l
    | .error _ => accounts
  | .increaseOp u a =>
    match Increase accounts u a with
    | .ok l => l
    | .error _ => accounts
  | .getOrCreateOp u => (GetOrCreate accounts u).2
  | .rechargeOp u a => (Recharge ⟨accounts, [], [], []⟩ u a).2.accounts

def applyAccountOps (accounts : List Account) (ops : List AccountOp) :
    List Account :=
  ops.foldl applyAccountOp accounts

/-- Call-site guarantee of this repository: every amount fed to the raw
credit primitive is non-negative (recharge guards positivity itself, and the
refund flow credits a paid order's amount). -/
def creditNonneg : AccountOp → Bool
  | .increaseOp _ a => decide (0 ≤ a)
  | _ => true

/-! # Theorems

General lemmas about the row-list update pattern, then one theorem (plus
witness or counterexample) per specification claim. -/

theorem updWhere_append (q : α → Bool) (f : α → α) (l₁ l₂ : List α) :
    updWhere q f (l₁ ++ l₂) = updWhere q f l₁ ++ updWhere q f l₂ := by
  simp [updWhere]

theorem updWhere_eq_self (q : α → Bool) (f : α → α) (l : List α)
    (h : ∀ x ∈ l, q x = false) : updWhere q f l = l := by
  unfold updWhere
  rw [List.map_congr_left (g := id) (fun a ha => by simp [h a ha])]
  exact List.map_id l

theorem find?_updWhere (l : List α) (q : α → Bool) (f : α → α) (p : α → Bool)
    (hp : ∀ x, p (if q x then f x else x) = p x) :
    (updWhere q f l).find? p =
      (l.find? p).map fun x => if q x then f x else x := by
  unfold updWhere
  rw [List.find?_map]
  have hcomp : (p ∘ fun x => if q x then f x else x) = p := by
    funext x
    exact hp x
  rw [hcomp]

theorem find?_key_eq_of_mem_nodup {κ : Type} [BEq κ] [LawfulBEq κ]
    (key : α → κ) {l : List α} (hn : (l.map key).Nodup) {a : α} (ha : a ∈ l) :
    l.find? (fun x => key x == key a) = some a := by
  induction l with
  | nil => cases ha
  | cons h t ih =>
    rw [List.find?_cons]
    by_cases hk : key h == key a
    · rw [hk]
      rcases List.mem_cons.mp ha with rfl | hat
      · rfl
      · exfalso
        have hka : key h = key a := eq_of_beq hk
        have : key a ∈ t.map key := List.mem_map_of_mem key hat
        rw [List.map_cons, List.nodup_cons] at hn
        exact hn.1 (hka ▸ this)
    · rw [Bool.of_not_eq_true hk]
      rcases List.mem_cons.mp ha with rfl | hat
      · simp at hk
      · rw [List.map_cons, List.nodup_cons] at hn
        exact ih hn.2 hat

/-- The transition predicate, enumerated: exactly the seven DAG edges. -/
theorem canTransitionTo_iff (f t : String) : CanTransitionTo f t = true ↔
    (f = OrderStatusCreated ∧
      (t = OrderStatusPaying ∨ t = OrderStatusClosed ∨ t = OrderStatusCancelled)) ∨
    (f = OrderStatusPaying ∧ (t = OrderStatusPaid ∨ t = OrderStatusFailed)) ∨
    (f = OrderStatusPaid ∧ t = OrderStatusRefunding) ∨
    (f = OrderStatusRefunding ∧ t = OrderStatusRefunded) := by
  unfold CanTransitionTo ValidStatusTransitions
  unfold OrderStatusCreated OrderStatusPaying OrderStatusPaid OrderStatusFailed
    OrderStatusClosed OrderStatusCancelled OrderStatusRefunding OrderStatusRefunded
  split_ifs with h1 h2 h3 h4
  · subst h1; simp
  · subst h2; simp [h1]
  · subst h3; simp [h1, h2]
  · subst h4; simp [h1, h2, h3]
  · simp [h1, h2, h3, h4]

/-- A guarded update whose WHERE clause matches no stored row fails with the
invalid-transition error. -/
theorem updateStatus_no_match (orders : List PayOrder) (now : Int)
    (no f t : String) (h : ∀ o ∈ orders, ¬(o.orderNo = no ∧ o.status = f)) :
    UpdateStatus orders now no f t = .error .orderStatusInvalid := by
  have hany : orders.any
      (fun o => o.orderNo == no && o.status == f) = false := by
    rw [List.any_eq_false]
    intro o ho
    simp only [Bool.and_eq_true, beq_iff_eq, not_and]
    intro ha hb
    exact h o ho ⟨ha, hb⟩
  by_cases hc : CanTransitionTo f t
  · simp [UpdateStatus, hc, hany]
  · simp [UpdateStatus, Bool.of_not_eq_true hc]

/-- A guarded update succeeds only on a table-legal pair with a matching row. -/
theorem updateStatus_ok_inv (orders : List PayOrder) (now : Int)
    (no f t : String) (orders' : List PayOrder)
    (h : UpdateStatus orders now no f t = .ok orders') :
    CanTransitionTo f t = true ∧ ∃ o ∈ orders, o.orderNo = no ∧ o.status = f := by
  by_cases hc : CanTransitionTo f t
  · refine ⟨hc, ?_⟩
    by_cases hany : orders.any (fun o => o.orderNo == no && o.status == f)
    · obtain ⟨o, ho, hq⟩ := List.any_eq_true.mp hany
      simp only [Bool.and_eq_true, beq_iff_eq] at hq
      exact ⟨o, ho, hq.1, hq.2⟩
    · simp [UpdateStatus, hc, Bool.of_not_eq_true hany] at h
  · simp [UpdateStatus, Bool.of_not_eq_true hc] at h

/-- On success the guarded update rewrites exactly the rows matching
`(order_no, from)` and returns them; it also stamps `paid_at` when the target
is PAID. -/
theorem updateStatus_ok_eq (orders : List PayOrder) (now : Int)
    (no f t : String) (orders' : List PayOrder)
    (h : UpdateStatus orders now no f t = .ok orders') :
    orders' = updWhere (fun o => o.orderNo == no && o.status == f)
      (fun o =>
        { o with
          status := t
          paidAt := if t == OrderStatusPaid then some now else o.paidAt })
      orders := by
  by_cases hc : CanTransitionTo f t
  · by_cases hany : orders.any (fun o => o.orderNo == no && o.status == f)
    · simp only [UpdateStatus, hc, Bool.not_true, Bool.false_eq_true, if_false,
        hany, if_true, Except.ok.injEq] at h
      exact h.symm
    · simp [UpdateStatus, hc, Bool.of_not_eq_true hany] at h
  · simp [UpdateStatus, Bool.of_not_eq_true hc] at h

/-- C2: the transition check accepts a (from, to) pair exactly when it is an
edge of the DAG CREATED→{PAYING, CLOSED, CANCELLED}, PAYING→{PAID, FAILED},
PAID→REFUNDING, REFUNDING→REFUNDED; every other pair is rejected with the
invalid-transition error, and a conditional update matching zero rows (the
stored status differs from the expected source) is also reported as an
invalid transition without modifying any order row (the store value is
returned unchanged alongside the error). -/
theorem order_status_transition_guard :
    (∀ f t : String, CanTransitionTo f t = true ↔
      (f = OrderStatusCreated ∧
        (t = OrderStatusPaying ∨ t = OrderStatusClosed ∨ t = OrderStatusCancelled)) ∨
      (f = OrderStatusPaying ∧ (t = OrderStatusPaid ∨ t = OrderStatusFailed)) ∨
      (f = OrderStatusPaid ∧ t = OrderStatusRefunding) ∨
      (f = OrderStatusRefunding ∧ t = OrderStatusRefunded))
    ∧ (∀ (orders : List PayOrder) (now : Int) (no f t : String),
        (∀ o ∈ orders, ¬(o.orderNo = no ∧ o.status = f)) →
        UpdateStatus orders now no f t = .error .orderStatusInvalid)
    ∧ (∀ (orders : List PayOrder) (now : Int) (no f t : String)
        (orders' : List PayOrder),
        UpdateStatus orders now no f t = .ok orders' →
        CanTransitionTo f t = true ∧ ∃ o ∈ orders, o.orderNo = no ∧ o.status = f) :=
  ⟨canTransitionTo_iff, updateStatus_no_match, updateStatus_ok_inv⟩

/-- C2 witness: a legal edge is accepted, and an update against an empty
store (zero matching rows) errors. -/
theorem order_status_transition_guard_witness :
    CanTransitionTo "PAID" "REFUNDING" = true ∧
    UpdateStatus [] 0 "O1" "PAID" "REFUNDING" = .error .orderStatusInvalid := by
  constructor
  · exact (order_status_transition_guard.1 "PAID" "REFUNDING").mpr
      (by simp [OrderStatusPaid, OrderStatusRefunding])
  · exact order_status_transition_guard.2.1 [] 0 "O1" "PAID" "REFUNDING"
      (by intro o ho; cases ho)

/-- CANCELLED is reachable in one legal step only from CREATED. -/
theorem canTransitionTo_cancelled_iff (s : String) :
    CanTransitionTo s OrderStatusCancelled = true ↔ s = OrderStatusCreated := by
  rw [canTransitionTo_iff]
  constructor
  · rintro (⟨h, _⟩ | ⟨_, h⟩ | ⟨_, h⟩ | ⟨_, h⟩)
    · exact h
    · rcases h with h | h <;>
        simp [OrderStatusCancelled, OrderStatusPaid, OrderStatusFailed] at h
    · simp [OrderStatusCancelled, OrderStatusRefunding] at h
    · simp [OrderStatusCancelled, OrderStatusRefunded] at h
  · intro h
    exact Or.inl ⟨h, Or.inr (Or.inr rfl)⟩

/-- C10: CancelOrder succeeds exactly on orders whose stored status is
CREATED, rewriting the row to CANCELLED; for an order in any other status
(including already CANCELLED) it returns the invalid-transition error and
leaves the store unchanged, because it requests current-status→CANCELLED and
only CREATED→CANCELLED is in the transition table. -/
theorem CancelOrder_only_from_created (db : DB) (no : String) (now : Int)
    (order : PayOrder)
    (hfind : db.orders.find? (fun o => o.orderNo == no) = some order) :
    (order.status = OrderStatusCreated →
      (CancelOrder db no now).1 = .ok () ∧
      (CancelOrder db no now).2.orders.find? (fun o => o.orderNo == no) =
        some { order with status := OrderStatusCancelled })
    ∧ (order.status ≠ OrderStatusCreated →
      CancelOrder db no now = (.error .orderStatusInvalid, db)) := by
  have hmem := List.mem_of_find?_eq_some hfind
  have hpo : (order.orderNo == no) = true := by
    have h := List.find?_some hfind
    simpa using h
  constructor
  · intro hst
    have hc : CanTransitionTo order.status OrderStatusCancelled = true :=
      (canTransitionTo_cancelled_iff order.status).mpr hst
    have hany : db.orders.any
        (fun o => o.orderNo == no && o.status == order.status) = true :=
      List.any_eq_true.mpr ⟨order, hmem, by simp [hpo]⟩
    have hupd : UpdateStatus db.orders now no order.status OrderStatusCancelled =
        .ok (updWhere (fun o => o.orderNo == no && o.status == order.status)
          (fun o =>
            { o with
              status := OrderStatusCancelled
              paidAt := if OrderStatusCancelled == OrderStatusPaid then some now
                        else o.paidAt })
          db.orders) := by
      simp [UpdateStatus, hc, hany]
    refine ⟨?_, ?_⟩
    · simp [CancelOrder, GetByOrderNo, hfind, hupd]
    · have h2 : (CancelOrder db no now).2.orders =
          updWhere (fun o => o.orderNo == no && o.status == order.status)
            (fun o =>
              { o with
                status := OrderStatusCancelled
                paidAt := if OrderStatusCancelled == OrderStatusPaid then some now
                          else o.paidAt })
            db.orders := by
        simp [CancelOrder, GetByOrderNo, hfind, hupd]
      rw [h2, find?_updWhere]
      · rw [hfind]
        have hno : order.orderNo = no := by simpa using hpo
        simp [OrderStatusCancelled, OrderStatusPaid, hno]
      · intro x
        by_cases hq : (fun o => o.orderNo == no && o.status == order.status) x <;>
          simp [hq]
  · intro hst
    have hc : CanTransitionTo order.status OrderStatusCancelled = false := by
      rcases h : CanTransitionTo order.status OrderStatusCancelled with _ | _
      · rfl
      · exact absurd ((canTransitionTo_cancelled_iff order.status).mp h) hst
    have hupd : UpdateStatus db.orders now no order.status OrderStatusCancelled =
        .error .orderStatusInvalid := by
      simp [UpdateStatus, hc]
    simp [CancelOrder, GetByOrderNo, hfind, hupd]

/-- C10 witness: a CREATED order cancels; a PAID order is rejected and the
store is unchanged. -/
theorem CancelOrder_only_from_created_witness :
    (CancelOrder
      ⟨[], [⟨"O9", "R9", 1, 5, "t", "p", "CREATED", 9, none, 0⟩], [], []⟩
      "O9" 3).1 = .ok ()
    ∧ CancelOrder
        ⟨[], [⟨"O8", "R8", 1, 5, "t", "p", "PAID", 9, some 1, 0⟩], [], []⟩
        "O8" 3 =
      (.error .orderStatusInvalid,
        ⟨[], [⟨"O8", "R8", 1, 5, "t", "p", "PAID", 9, some 1, 0⟩], [], []⟩) := by
  constructor
  · exact ((CancelOrder_only_from_created
      ⟨[], [⟨"O9", "R9", 1, 5, "t", "p", "CREATED", 9, none, 0⟩], [], []⟩
      "O9" 3 ⟨"O9", "R9", 1, 5, "t", "p", "CREATED", 9, none, 0⟩
      (by decide)).1 rfl).1
  · exact (CancelOrder_only_from_created
      ⟨[], [⟨"O8", "R8", 1, 5, "t", "p", "PAID", 9, some 1, 0⟩], [], []⟩
      "O8" 3 ⟨"O8", "R8", 1, 5, "t", "p", "PAID", 9, some 1, 0⟩
      (by decide)).2 (by decide)

/-- Two rows of a key-nodup table with equal keys are the same row. -/
theorem mem_eq_of_key_nodup {κ : Type} [BEq κ] [LawfulBEq κ] (key : α → κ)
    {l : List α} (hn : (l.map key).Nodup) {x y : α} (hx : x ∈ l) (hy : y ∈ l)
    (hk : key x = key y) : x = y := by
  have h1 := find?_key_eq_of_mem_nodup key hn hx
  have h2 := find?_key_eq_of_mem_nodup key hn hy
  simp only [hk] at h1
  exact Option.some.inj (h1.symm.trans h2)

/-- A successful conditional debit is exactly the guarded row rewrite. -/
theorem deduct_ok_eq (accounts : List Account) (u a v : Int) (l' : List Account)
    (h : Deduct accounts u a v = .ok l') :
    accounts.any
      (fun x => x.userId == u && x.balance >= a && x.version == v) = true ∧
    l' = updWhere (fun x => x.userId == u && x.balance >= a && x.version == v)
      (fun x => { x with balance := x.balance - a, version := x.version + 1 })
      accounts := by
  by_cases hany : accounts.any
      (fun x => x.userId == u && x.balance >= a && x.version == v)
  · refine ⟨hany, ?_⟩
    simp only [Deduct, hany, if_true, Except.ok.injEq] at h
    exact h.symm
  · exfalso
    simp only [Deduct, Bool.of_not_eq_true hany, Bool.false_eq_true, if_false] at h
    split at h
    · cases h
    · split at h <;> cases h

/-- A successful unconditional credit is exactly the per-user row rewrite. -/
theorem increase_ok_eq (accounts : List Account) (u a : Int) (l' : List Account)
    (h : Increase accounts u a = .ok l') :
    accounts.any (fun x => x.userId == u) = true ∧
    l' = updWhere (fun x => x.userId == u)
      (fun x => { x with balance := x.balance + a, version := x.version + 1 })
      accounts := by
  by_cases hany : accounts.any (fun x => x.userId == u)
  · refine ⟨hany, ?_⟩
    simp only [Increase, hany, if_true, Except.ok.injEq] at h
    exact h.symm
  · simp only [Increase, Bool.of_not_eq_true hany, Bool.false_eq_true, if_false] at h
    cases h

/-- Row updates of the account table never change the user id, so per-user
lookups commute with them. -/
theorem account_upd_preserves_userId (q : Account → Bool) (u' : Int)
    (g : Account → Account) (hg : ∀ x, (g x).userId = x.userId) :
    ∀ x : Account,
      (fun y : Account => y.userId == u') (if q x then g x else x) =
      (fun y : Account => y.userId == u') x := by
  intro x
  by_cases hq : q x <;> simp [hq, hg]

/-- With user-unique rows, a successful debit hit exactly the caller's row:
that row had sufficient balance and the expected version, and afterwards it
carries the debited balance and the incremented version while every other
user's lookup is unchanged. -/
theorem deduct_ok_find (accounts : List Account) (u a v : Int)
    (l' : List Account)
    (hnodup : (accounts.map (fun x => x.userId)).Nodup)
    (h : Deduct accounts u a v = .ok l') :
    ∃ acc, accounts.find? (fun x => x.userId == u) = some acc ∧
      a ≤ acc.balance ∧ acc.version = v ∧
      l'.find? (fun x => x.userId == u) =
        some { acc with balance := acc.balance - a, version := acc.version + 1 } ∧
      ∀ u', u' ≠ u →
        l'.find? (fun x => x.userId == u') =
          accounts.find? (fun x => x.userId == u') := by
  obtain ⟨hany, hl⟩ := deduct_ok_eq accounts u a v l' h
  obtain ⟨x, hx, hqx⟩ := List.any_eq_true.mp hany
  simp only [Bool.and_eq_true, beq_iff_eq, decide_eq_true_eq, ge_iff_le] at hqx
  obtain ⟨⟨hxu, hxb⟩, hxv⟩ := hqx
  have hfind : accounts.find? (fun y => y.userId == u) = some x := by
    have hf := find?_key_eq_of_mem_nodup (fun y => y.userId) hnodup hx
    simpa [hxu] using hf
  have hp := account_upd_preserves_userId
    (fun y => y.userId == u && y.balance >= a && y.version == v)
    (g := fun y => { y with balance := y.balance - a, version := y.version + 1 })
  refine ⟨x, hfind, hxb, hxv, ?_, ?_⟩
  · rw [hl, find?_updWhere _ _ _ _ (hp u (fun y => rfl)), hfind]
    simp [hxu, hxb, hxv]
  · intro u' hu'
    rw [hl, find?_updWhere _ _ _ _ (hp u' (fun y => rfl))]
    cases hf' : accounts.find? (fun y => y.userId == u') with
    | none => simp
    | some y =>
      have hyu : y.userId = u' := by simpa using List.find?_some hf'
      have hyq : (y.userId == u) = false := by
        simp [hyu]
        exact hu'
      simp [hyq]
      intro h1
      exact absurd (hyu ▸ h1) hu'

/-- With user-unique rows, a successful credit updated exactly the caller's
row (balance plus amount, version plus one); other users are unchanged. -/
theorem increase_ok_find (accounts : List Account) (u a : Int)
    (l' : List Account)
    (hnodup : (accounts.map (fun x => x.userId)).Nodup)
    (h : Increase accounts u a = .ok l') :
    ∃ acc, accounts.find? (fun x => x.userId == u) = some acc ∧
      l'.find? (fun x => x.userId == u) =
        some { acc with balance := acc.balance + a, version := acc.version + 1 } ∧
      ∀ u', u' ≠ u →
        l'.find? (fun x => x.userId == u') =
          accounts.find? (fun x => x.userId == u') := by
  obtain ⟨hany, hl⟩ := increase_ok_eq accounts u a l' h
  obtain ⟨x, hx, hqx⟩ := List.any_eq_true.mp hany
  simp only [beq_iff_eq] at hqx
  have hfind : accounts.find? (fun y => y.userId == u) = some x := by
    have hf := find?_key_eq_of_mem_nodup (fun y => y.userId) hnodup hx
    simpa [hqx] using hf
  have hp := account_upd_preserves_userId (fun y => y.userId == u)
    (g := fun y => { y with balance := y.balance + a, version := y.version + 1 })
  refine ⟨x, hfind, ?_, ?_⟩
  · rw [hl, find?_updWhere _ _ _ _ (hp u (fun y => rfl)), hfind]
    simp [hqx]
  · intro u' hu'
    rw [hl, find?_updWhere _ _ _ _ (hp u' (fun y => rfl))]
    cases hf' : accounts.find? (fun y => y.userId == u') with
    | none => simp
    | some y =>
      have hyu : y.userId = u' := by simpa using List.find?_some hf'
      have hyq : (y.userId == u) = false := by
        simp [hyu]
        exact hu'
      simp [hyq]
      intro h1
      exact absurd (hyu ▸ h1) hu' 

/-- With user-unique rows, the zero-rows re-read classification of a failed
debit: insufficient balance wins, otherwise the version mismatched. -/
theorem deduct_error_cases (accounts : List Account) (u a v : Int)
    (acc : Account)
    (hnodup : (accounts.map (fun x => x.userId)).Nodup)
    (hfind : accounts.find? (fun x => x.userId == u) = some acc) :
    (acc.balance < a → Deduct accounts u a v = .error .balanceNotEnough) ∧
    (a ≤ acc.balance → acc.version ≠ v →
      Deduct accounts u a v = .error .optimisticLock) := by
  have hmem := List.mem_of_find?_eq_some hfind
  have haccu : acc.userId = u := by simpa using List.find?_some hfind
  have hx_eq : ∀ x ∈ accounts, x.userId = u → x = acc := by
    intro x hxm hxu
    exact mem_eq_of_key_nodup (fun y => y.userId) hnodup hxm hmem
      (by show x.userId = acc.userId; rw [hxu, haccu])
  constructor
  · intro hlt
    have hany : accounts.any
        (fun x => x.userId == u && x.balance >= a && x.version == v) = false := by
      rw [List.any_eq_false]
      intro x hxm
      simp only [Bool.and_eq_true, beq_iff_eq, decide_eq_true_eq, ge_iff_le,
        not_and]
      intro hq
      rw [hx_eq x hxm hq.1] at hq
      exact absurd hq.2 (by omega)
    simp [Deduct, hany, GetByUserID, hfind, hlt]
  · intro hge hver
    have hany : accounts.any
        (fun x => x.userId == u && x.balance >= a && x.version == v) = false := by
      rw [List.any_eq_false]
      intro x hxm
      simp only [Bool.and_eq_true, beq_iff_eq, decide_eq_true_eq, ge_iff_le,
        not_and]
      intro hq hv
      exact hver ((hx_eq x hxm hq.1) ▸ hv)
    have hnlt : ¬acc.balance < a := by omega
    simp [Deduct, hany, GetByUserID, hfind, hnlt]

/-- C3: Deduct(user, amount, expectedVersion) succeeds exactly on a stored row
with sufficient balance and the expected version, debiting it (never producing
a negative balance from non-negative ones); on zero rows affected it re-reads
the account and returns BalanceNotEnough when the current balance is below the
amount, and OptimisticConflict when the balance suffices but the version
mismatched. -/
theorem Deduct_conditional_debit_spec (accounts : List Account) (u a v : Int)
    (hnodup : (accounts.map (fun x => x.userId)).Nodup) :
    (∀ l', Deduct accounts u a v = .ok l' →
      ∃ acc, accounts.find? (fun x => x.userId == u) = some acc ∧
        a ≤ acc.balance ∧ acc.version = v ∧
        l'.find? (fun x => x.userId == u) =
          some { acc with balance := acc.balance - a, version := acc.version + 1 })
    ∧ (∀ acc, accounts.find? (fun x => x.userId == u) = some acc →
        acc.balance < a → Deduct accounts u a v = .error .balanceNotEnough)
    ∧ (∀ acc, accounts.find? (fun x => x.userId == u) = some acc →
        a ≤ acc.balance → acc.version ≠ v →
        Deduct accounts u a v = .error .optimisticLock)
    ∧ (∀ l', Deduct accounts u a v = .ok l' →
        (∀ x ∈ accounts, 0 ≤ x.balance) → ∀ y ∈ l', 0 ≤ y.balance) := by
  refine ⟨?_, ?_, ?_, ?_⟩
  · intro l' h
    obtain ⟨acc, hfind, hb, hv, hafter, _⟩ :=
      deduct_ok_find accounts u a v l' hnodup h
    exact ⟨acc, hfind, hb, hv, hafter⟩
  · intro acc hfind hlt
    exact (deduct_error_cases accounts u a v acc hnodup hfind).1 hlt
  · intro acc hfind hge hver
    exact (deduct_error_cases accounts u a v acc hnodup hfind).2 hge hver
  · intro l' h hpos y hy
    obtain ⟨_, hl⟩ := deduct_ok_eq accounts u a v l' h
    rw [hl] at hy
    obtain ⟨x, hxm, hxy⟩ := List.mem_map.mp hy
    by_cases hq : (x.userId == u && x.balance >= a && x.version == v) = true
    · rw [if_pos hq] at hxy
      simp only [Bool.and_eq_true, decide_eq_true_eq, ge_iff_le] at hq
      rw [← hxy]
      simp only []
      omega
    · rw [if_neg hq] at hxy
      exact hxy ▸ hpos x hxm

/-- C3 witness: with a single account (balance 100, version 0), a debit of 30
against version 0 succeeds and leaves 70; a debit of 200 fails with
BalanceNotEnough; a debit of 30 against version 5 fails with
OptimisticConflict. -/
theorem Deduct_conditional_debit_spec_witness :
    (∃ acc, [(⟨1, 100, 0, 0⟩ : Account)].find? (fun x => x.userId == 1) =
        some acc ∧ (30 : Int) ≤ acc.balance ∧ acc.version = 0 ∧
        [(⟨1, 70, 0, 1⟩ : Account)].find? (fun x => x.userId == 1) =
          some { acc with balance := acc.balance - 30, version := acc.version + 1 })
    ∧ Deduct [⟨1, 100, 0, 0⟩] 1 200 0 = .error .balanceNotEnough
    ∧ Deduct [⟨1, 100, 0, 0⟩] 1 30 5 = .error .optimisticLock := by
  refine ⟨?_, ?_, ?_⟩
  · exact (Deduct_conditional_debit_spec [⟨1, 100, 0, 0⟩] 1 30 0 (by decide)).1
      [⟨1, 70, 0, 1⟩] (by rfl)
  · exact (Deduct_conditional_debit_spec [⟨1, 100, 0, 0⟩] 1 200 0 (by decide)).2.1
      ⟨1, 100, 0, 0⟩ (by decide) (by decide)
  · exact (Deduct_conditional_debit_spec [⟨1, 100, 0, 0⟩] 1 30 5 (by decide)).2.2.1
      ⟨1, 100, 0, 0⟩ (by decide) (by decide) (by decide)

/-- Outbox row updates never change the row id, so id lookups commute. -/
theorem outbox_upd_preserves_id (q : OutboxMessage → Bool) (i : Int)
    (g : OutboxMessage → OutboxMessage) (hg : ∀ m, (g m).id = m.id) :
    ∀ m : OutboxMessage,
      (fun x : OutboxMessage => x.id == i) (if q m then g m else m) =
      (fun x : OutboxMessage => x.id == i) m := by
  intro m
  by_cases hq : q m <;> simp [hq, hg]

/-- C9 counterexample: with max_retries 3 and a pending row already at
retry_count 2, a failed publish crosses the threshold and leaves
retry_count 4 — the relay incremented it twice (IncrementRetryCount and then
MarkAsFailed), not by one as the claim states. -/
theorem outbox_failed_double_increment :
    (sendMessage [⟨1, "k", "t", "p", "PENDING", 2⟩]
        ⟨1, "k", "t", "p", "PENDING", 2⟩ false 3).find?
        (fun m => m.id == 1) = some ⟨1, "k", "t", "p", "FAILED", 4⟩
    ∧ ∀ m ∈ sendMessage [⟨1, "k", "t", "p", "PENDING", 2⟩]
        ⟨1, "k", "t", "p", "PENDING", 2⟩ false 3, m.retryCount ≠ 3 := by
  constructor
  · rfl
  · decide

/-- C9 (amended): on publish success the relay marks the row SENT; on failure
it increments retry_count by one and, exactly when the incremented count has
reached the configured max_retries, marks the row FAILED — that marking update
increments retry_count a second time, so a threshold-crossing failure leaves
retry_count two above its previous value.  FAILED is terminal for the relay:
its scan fetches only PENDING rows. -/
theorem outbox_relay_retry_accounting (outbox : List OutboxMessage)
    (msg : OutboxMessage) (maxRetryCount : Int)
    (hfind : outbox.find? (fun m => m.id == msg.id) = some msg) :
    ((sendMessage outbox msg true maxRetryCount).find?
        (fun m => m.id == msg.id) = some { msg with status := OutboxStatusSent })
    ∧ (msg.retryCount + 1 < maxRetryCount →
        (sendMessage outbox msg false maxRetryCount).find?
          (fun m => m.id == msg.id) =
          some { msg with retryCount := msg.retryCount + 1 })
    ∧ (msg.retryCount + 1 ≥ maxRetryCount →
        (sendMessage outbox msg false maxRetryCount).find?
          (fun m => m.id == msg.id) =
          some { msg with
                 status := OutboxStatusFailed
                 retryCount := msg.retryCount + 1 + 1 })
    ∧ (∀ limit : Nat, ∀ m ∈ GetPendingMessages outbox limit,
        m.status = OutboxStatusPending) := by
  have hself : (msg.id == msg.id) = true := by simp
  refine ⟨?_, ?_, ?_, ?_⟩
  · rw [show sendMessage outbox msg true maxRetryCount =
        OutboxUpdateStatus outbox msg.id OutboxStatusSent from rfl]
    rw [OutboxUpdateStatus, find?_updWhere _ _ _ _
      (by intro x; split <;> rfl), hfind]
    simp
  · intro hlt
    have hnot : ¬(msg.retryCount + 1 ≥ maxRetryCount) := by omega
    rw [show sendMessage outbox msg false maxRetryCount =
        if msg.retryCount + 1 ≥ maxRetryCount then
          MarkAsFailed (IncrementRetryCount outbox msg.id) msg.id
        else IncrementRetryCount outbox msg.id from rfl]
    rw [if_neg hnot, IncrementRetryCount, find?_updWhere _ _ _ _
      (by intro x; split <;> rfl), hfind]
    simp
  · intro hge
    rw [show sendMessage outbox msg false maxRetryCount =
        if msg.retryCount + 1 ≥ maxRetryCount then
          MarkAsFailed (IncrementRetryCount outbox msg.id) msg.id
        else IncrementRetryCount outbox msg.id from rfl]
    rw [if_pos hge, MarkAsFailed, IncrementRetryCount]
    rw [find?_updWhere _ _ _ _
      (by intro x; split <;> rfl)]
    rw [find?_updWhere _ _ _ _
      (by intro x; split <;> rfl), hfind]
    simp
  · intro limit m hm
    have hm' := List.mem_of_mem_take hm
    have := (List.mem_filter.mp hm').2
    simpa using this

/-- C9 witness: concrete success, sub-threshold failure, and the pending-only
scan, on a one-row store. -/
theorem outbox_relay_retry_accounting_witness :
    ((sendMessage [⟨1, "k", "t", "p", "PENDING", 0⟩]
        ⟨1, "k", "t", "p", "PENDING", 0⟩ true 3).find?
        (fun m => m.id == 1) = some ⟨1, "k", "t", "p", "SENT", 0⟩)
    ∧ ((sendMessage [⟨1, "k", "t", "p", "PENDING", 0⟩]
        ⟨1, "k", "t", "p", "PENDING", 0⟩ false 3).find?
        (fun m => m.id == 1) = some ⟨1, "k", "t", "p", "PENDING", 1⟩) := by
  have h := outbox_relay_retry_accounting [⟨1, "k", "t", "p", "PENDING", 0⟩]
    ⟨1, "k", "t", "p", "PENDING", 0⟩ 3 (by rfl)
  exact ⟨h.1, h.2.1 (by decide)⟩

/-- Order updates never change the order number, so number lookups commute. -/
theorem order_upd_preserves_orderNo (q : PayOrder → Bool) (no : String)
    (g : PayOrder → PayOrder) (hg : ∀ o, (g o).orderNo = o.orderNo) :
    ∀ o : PayOrder,
      (fun x : PayOrder => x.orderNo == no) (if q o then g o else o) =
      (fun x : PayOrder => x.orderNo == no) o := by
  intro o
  by_cases hq : q o <;> simp [hq, hg]

/-- C8: for an order in status PAYING (fetched by the compensation job), if a
PAY ledger row exists for its order number the job drives PAYING→PAID via the
guarded transition; otherwise, if the order's creation time is older than the
configured order-timeout, it drives PAYING→FAILED; otherwise it leaves the
store unchanged.  The ledger-typing hypothesis reflects invariant I6: rows
recorded under an order number that is still PAYING are PAY rows. -/
theorem compensate_order_per_order_rule (db : DB) (order : PayOrder)
    (now timeoutMinutes : Int)
    (hord : db.orders.find? (fun o => o.orderNo == order.orderNo) = some order)
    (hpaying : order.status = OrderStatusPaying)
    (htypes : ∀ t ∈ db.transactions, t.orderNo = order.orderNo →
      t.ttype = TransactionTypePay) :
    ((∃ t ∈ db.transactions, t.orderNo = order.orderNo) →
      orderStatusOf (compensateOrder db order now timeoutMinutes) order.orderNo =
        some OrderStatusPaid)
    ∧ ((∀ t ∈ db.transactions, t.orderNo ≠ order.orderNo) →
        now - order.createdAt > timeoutMinutes * 60 →
        orderStatusOf (compensateOrder db order now timeoutMinutes) order.orderNo =
          some OrderStatusFailed)
    ∧ ((∀ t ∈ db.transactions, t.orderNo ≠ order.orderNo) →
        ¬(now - order.createdAt > timeoutMinutes * 60) →
        compensateOrder db order now timeoutMinutes = db) := by
  have hmem := List.mem_of_find?_eq_some hord
  have hupd : ∀ toStatus : String,
      CanTransitionTo OrderStatusPaying toStatus = true →
      UpdateStatus db.orders now order.orderNo OrderStatusPaying toStatus =
        .ok (updWhere
          (fun o => o.orderNo == order.orderNo && o.status == OrderStatusPaying)
          (fun o =>
            { o with
              status := toStatus
              paidAt := if toStatus == OrderStatusPaid then some now
                        else o.paidAt })
          db.orders) := by
    intro toStatus hc
    have hany : db.orders.any
        (fun o => o.orderNo == order.orderNo && o.status == OrderStatusPaying) =
        true :=
      List.any_eq_true.mpr ⟨order, hmem, by simp [hpaying]⟩
    simp [UpdateStatus, hc, hany]
  refine ⟨?_, ?_, ?_⟩
  · intro ⟨t, ht, hteq⟩
    cases hfind' : db.transactions.find? (fun x => x.orderNo == order.orderNo) with
    | none =>
      exfalso
      rw [List.find?_eq_none] at hfind'
      exact hfind' t ht (by simp [hteq])
    | some t' =>
      have ht'no : t'.orderNo = order.orderNo := by
        simpa using List.find?_some hfind'
      have ht'ty : t'.ttype = TransactionTypePay :=
        htypes t' (List.mem_of_find?_eq_some hfind') ht'no
      simp only [compensateOrder, TxnGetByOrderNo, hfind', ht'ty,
        beq_self_eq_true, if_true, hupd OrderStatusPaid (by decide)]
      rw [orderStatusOf]
      simp only []
      rw [find?_updWhere _ _ _ _ (by intro x; split <;> rfl), hord]
      simp [hpaying]
  · intro hno htime
    have hnone : db.transactions.find?
        (fun t => t.orderNo == order.orderNo) = none := by
      rw [List.find?_eq_none]
      intro t ht
      simpa using hno t ht
    simp only [compensateOrder, TxnGetByOrderNo, hnone, compensateTimeout,
      if_pos htime, hupd OrderStatusFailed (by decide)]
    rw [orderStatusOf]
    simp only []
    rw [find?_updWhere _ _ _ _ (by intro x; split <;> rfl), hord]
    simp [hpaying, OrderStatusFailed, OrderStatusPaid]
  · intro hno htime
    have hnone : db.transactions.find?
        (fun t => t.orderNo == order.orderNo) = none := by
      rw [List.find?_eq_none]
      intro t ht
      simpa using hno t ht
    rw [compensateOrder, TxnGetByOrderNo, hnone, compensateTimeout,
      if_neg htime]

/-- C8 witness: a stale PAYING order with a PAY ledger row advances to PAID; a
stale one without a row fails after the timeout; a young one is untouched. -/
theorem compensate_order_per_order_rule_witness :
    orderStatusOf (compensateOrder
      ⟨[], [⟨"O5", "R5", 1, 40, "t", "p", "PAYING", 99, none, 0⟩],
        [⟨"T9", 1, "O5", -40, "PAY", 100, 60, ""⟩], []⟩
      ⟨"O5", "R5", 1, 40, "t", "p", "PAYING", 99, none, 0⟩ 10000 30) "O5" =
      some OrderStatusPaid
    ∧ orderStatusOf (compensateOrder
        ⟨[], [⟨"O6", "R6", 1, 40, "t", "p", "PAYING", 99, none, 0⟩], [], []⟩
        ⟨"O6", "R6", 1, 40, "t", "p", "PAYING", 99, none, 0⟩ 10000 30) "O6" =
      some OrderStatusFailed
    ∧ compensateOrder
        ⟨[], [⟨"O7", "R7", 1, 40, "t", "p", "PAYING", 99, none, 0⟩], [], []⟩
        ⟨"O7", "R7", 1, 40, "t", "p", "PAYING", 99, none, 0⟩ 100 30 =
      ⟨[], [⟨"O7", "R7", 1, 40, "t", "p", "PAYING", 99, none, 0⟩], [], []⟩ := by
  refine ⟨?_, ?_, ?_⟩
  · exact (compensate_order_per_order_rule
      ⟨[], [⟨"O5", "R5", 1, 40, "t", "p", "PAYING", 99, none, 0⟩],
        [⟨"T9", 1, "O5", -40, "PAY", 100, 60, ""⟩], []⟩
      ⟨"O5", "R5", 1, 40, "t", "p", "PAYING", 99, none, 0⟩ 10000 30
      (by rfl) (by rfl) (by decide)).1
      ⟨⟨"T9", 1, "O5", -40, "PAY", 100, 60, ""⟩, by decide, by decide⟩
  · exact (compensate_order_per_order_rule
      ⟨[], [⟨"O6", "R6", 1, 40, "t", "p", "PAYING", 99, none, 0⟩], [], []⟩
      ⟨"O6", "R6", 1, 40, "t", "p", "PAYING", 99, none, 0⟩ 10000 30
      (by rfl) (by rfl) (by decide)).2.1 (by decide) (by decide)
  · exact (compensate_order_per_order_rule
      ⟨[], [⟨"O7", "R7", 1, 40, "t", "p", "PAYING", 99, none, 0⟩], [], []⟩
      ⟨"O7", "R7", 1, 40, "t", "p", "PAYING", 99, none, 0⟩ 100 30
      (by rfl) (by rfl) (by decide)).2.2 (by decide) (by decide)

/-- A successful debit keeps every row's balance and frozen amount
non-negative: the WHERE clause guarantees the debited rows had sufficient
balance. -/
theorem deduct_preserves_nonneg (accounts : List Account) (u a v : Int)
    (l' : List Account) (h : Deduct accounts u a v = .ok l')
    (h0 : ∀ x ∈ accounts, 0 ≤ x.balance ∧ 0 ≤ x.frozenAmount) :
    ∀ y ∈ l', 0 ≤ y.balance ∧ 0 ≤ y.frozenAmount := by
  intro y hy
  obtain ⟨_, hl⟩ := deduct_ok_eq accounts u a v l' h
  rw [hl] at hy
  obtain ⟨x, hxm, hxy⟩ := List.mem_map.mp hy
  by_cases hq : (x.userId == u && x.balance >= a && x.version == v) = true
  · rw [if_pos hq] at hxy
    simp only [Bool.and_eq_true, decide_eq_true_eq, ge_iff_le] at hq
    rw [← hxy]
    exact ⟨by simp only []; omega, (h0 x hxm).2⟩
  · rw [if_neg hq] at hxy
    exact hxy ▸ h0 x hxm

/-- A successful non-negative credit keeps all rows non-negative. -/
theorem increase_preserves_nonneg (accounts : List Account) (u a : Int)
    (l' : List Account) (ha : 0 ≤ a) (h : Increase accounts u a = .ok l')
    (h0 : ∀ x ∈ accounts, 0 ≤ x.balance ∧ 0 ≤ x.frozenAmount) :
    ∀ y ∈ l', 0 ≤ y.balance ∧ 0 ≤ y.frozenAmount := by
  intro y hy
  obtain ⟨_, hl⟩ := increase_ok_eq accounts u a l' h
  rw [hl] at hy
  obtain ⟨x, hxm, hxy⟩ := List.mem_map.mp hy
  by_cases hq : (x.userId == u) = true
  · rw [if_pos hq] at hxy
    rw [← hxy]
    have := h0 x hxm
    exact ⟨by simp only []; omega, this.2⟩
  · rw [if_neg hq] at hxy
    exact hxy ▸ h0 x hxm

/-- Lazy account creation inserts a zeroed row, preserving non-negativity. -/
theorem getOrCreate_preserves_nonneg (accounts : List Account) (u : Int)
    (h0 : ∀ x ∈ accounts, 0 ≤ x.balance ∧ 0 ≤ x.frozenAmount) :
    ∀ y ∈ (GetOrCreate accounts u).2, 0 ≤ y.balance ∧ 0 ≤ y.frozenAmount := by
  intro y hy
  rw [GetOrCreate] at hy
  cases hf : accounts.find? (fun x => x.userId == u) with
  | some acc => rw [hf] at hy; exact h0 y hy
  | none =>
    rw [hf] at hy
    simp only [List.mem_append, List.mem_singleton] at hy
    rcases hy with hy | hy
    · exact h0 y hy
    · rw [hy]
      exact ⟨le_refl 0, le_refl 0⟩

/-- One service-level account operation preserves row non-negativity. -/
theorem applyAccountOp_preserves_nonneg (accounts : List Account)
    (op : AccountOp) (hop : creditNonneg op = true)
    (h0 : ∀ x ∈ accounts, 0 ≤ x.balance ∧ 0 ≤ x.frozenAmount) :
    ∀ y ∈ applyAccountOp accounts op, 0 ≤ y.balance ∧ 0 ≤ y.frozenAmount := by
  cases op with
  | deductOp u a v =>
    simp only [applyAccountOp]
    cases hd : Deduct accounts u a v with
    | error e => exact h0
    | ok l => exact deduct_preserves_nonneg accounts u a v l hd h0
  | increaseOp u a =>
    have ha : 0 ≤ a := by simpa [creditNonneg] using hop
    simp only [applyAccountOp]
    cases hd : Increase accounts u a with
    | error e => exact h0
    | ok l => exact increase_preserves_nonneg accounts u a l ha hd h0
  | getOrCreateOp u =>
    simp only [applyAccountOp]
    exact getOrCreate_preserves_nonneg accounts u h0
  | rechargeOp u a =>
    simp only [applyAccountOp, Recharge]
    by_cases ha : a ≤ 0
    · simp only [if_pos ha]
      exact h0
    · simp only [if_neg ha]
      have h1 := getOrCreate_preserves_nonneg accounts u h0
      cases hi : Increase (GetOrCreate accounts u).2 u a with
      | error e => simp only [hi]; exact h1
      | ok l =>
        simp only [hi]
        exact increase_preserves_nonneg _ u a l (by omega) hi h1

/-- Non-negativity is preserved along any operation sequence. -/
theorem applyAccountOps_preserves_nonneg (ops : List AccountOp) :
    ∀ accounts : List Account,
    (∀ x ∈ accounts, 0 ≤ x.balance ∧ 0 ≤ x.frozenAmount) →
    (∀ op ∈ ops, creditNonneg op = true) →
    ∀ y ∈ applyAccountOps accounts ops, 0 ≤ y.balance ∧ 0 ≤ y.frozenAmount := by
  induction ops with
  | nil =>
    intro accounts h0 _ y hy
    exact h0 y hy
  | cons op rest ih =>
    intro accounts h0 hops y hy
    have h1 := applyAccountOp_preserves_nonneg accounts op
      (hops op (List.mem_cons_self op rest)) h0
    have h2 := ih (applyAccountOp accounts op) h1
      (fun o ho => hops o (List.mem_cons_of_mem op ho))
    apply h2
    simpa [applyAccountOps, List.foldl_cons] using hy

/-- C6: starting from any account table with non-negative balances and frozen
amounts, any sequence of debit, credit, get-or-create and recharge operations
(with the call-site guarantee that raw credits are non-negative) keeps every
balance and frozen amount non-negative; and each row touched by a successful
balance mutation (debit or credit) carries exactly the incremented version,
all other rows being returned unchanged. -/
theorem account_invariant_nonneg_version (accounts : List Account)
    (ops : List AccountOp)
    (h0 : ∀ x ∈ accounts, 0 ≤ x.balance ∧ 0 ≤ x.frozenAmount)
    (hops : ∀ op ∈ ops, creditNonneg op = true) :
    (∀ y ∈ applyAccountOps accounts ops, 0 ≤ y.balance ∧ 0 ≤ y.frozenAmount)
    ∧ (∀ u a v l', Deduct accounts u a v = .ok l' →
        ∀ y ∈ l', y ∈ accounts ∨ ∃ x ∈ accounts, y.userId = x.userId ∧
          y.balance = x.balance - a ∧ y.frozenAmount = x.frozenAmount ∧
          y.version = x.version + 1)
    ∧ (∀ u a l', Increase accounts u a = .ok l' →
        ∀ y ∈ l', y ∈ accounts ∨ ∃ x ∈ accounts, y.userId = x.userId ∧
          y.balance = x.balance + a ∧ y.frozenAmount = x.frozenAmount ∧
          y.version = x.version + 1) := by
  refine ⟨?_, ?_, ?_⟩
  · exact applyAccountOps_preserves_nonneg ops accounts h0 hops
  · intro u a v l' h y hy
    obtain ⟨_, hl⟩ := deduct_ok_eq accounts u a v l' h
    rw [hl] at hy
    obtain ⟨x, hxm, hxy⟩ := List.mem_map.mp hy
    by_cases hq : (x.userId == u && x.balance >= a && x.version == v) = true
    · rw [if_pos hq] at hxy
      exact Or.inr ⟨x, hxm, by rw [← hxy]; exact ⟨rfl, rfl, rfl, rfl⟩⟩
    · rw [if_neg hq] at hxy
      exact Or.inl (hxy ▸ hxm)
  · intro u a l' h y hy
    obtain ⟨_, hl⟩ := increase_ok_eq accounts u a l' h
    rw [hl] at hy
    obtain ⟨x, hxm, hxy⟩ := List.mem_map.mp hy
    by_cases hq : (x.userId == u) = true
    · rw [if_pos hq] at hxy
      exact Or.inr ⟨x, hxm, by rw [← hxy]; exact ⟨rfl, rfl, rfl, rfl⟩⟩
    · rw [if_neg hq] at hxy
      exact Or.inl (hxy ▸ hxm)

/-- C6 witness: after debit 30, credit 30, recharge 50 and a lazy creation,
the first user's row reads balance 150, frozen 0, version 3 — non-negative,
with the version bumped once per balance mutation. -/
theorem account_invariant_nonneg_version_witness :
    0 ≤ (⟨1, 150, 0, 3⟩ : Account).balance ∧
    0 ≤ (⟨1, 150, 0, 3⟩ : Account).frozenAmount :=
  (account_invariant_nonneg_version [⟨1, 100, 0, 0⟩]
    [.deductOp 1 30 0, .increaseOp 1 30, .rechargeOp 1 50, .getOrCreateOp 2]
    (by decide) (by decide)).1 ⟨1, 150, 0, 3⟩ (by decide)

theorem find?_append_of_none {p : α → Bool} {l₁ : List α} (l₂ : List α)
    (h : l₁.find? p = none) : (l₁ ++ l₂).find? p = l₂.find? p := by
  rw [List.find?_append, h, Option.none_or]

theorem find?_append_of_some {p : α → Bool} {l₁ : List α} (l₂ : List α) {a : α}
    (h : l₁.find? p = some a) : (l₁ ++ l₂).find? p = some a := by
  rw [List.find?_append, h]
  rfl

/-- A key-preserving row rewrite leaves the key column unchanged. -/
theorem updWhere_map_key (q : α → Bool) (f : α → α) (l : List α)
    (key : α → κ) (hf : ∀ x, key (f x) = key x) :
    (updWhere q f l).map key = l.map key := by
  unfold updWhere
  rw [List.map_map]
  apply List.map_congr_left
  intro x _
  by_cases hq : q x <;> simp [hq, hf]

theorem balanceOfA_eq_of_find?_eq {l₁ l₂ : List Account} (u : Int)
    (h : l₁.find? (fun a => a.userId == u) = l₂.find? (fun a => a.userId == u)) :
    balanceOfA l₁ u = balanceOfA l₂ u := by
  rw [balanceOfA, balanceOfA, h]

theorem balanceOfA_of_find?_some {l : List Account} {u : Int} {a : Account}
    (h : l.find? (fun x => x.userId == u) = some a) :
    balanceOfA l u = a.balance := by
  rw [balanceOfA, h]

theorem balanceOfA_of_find?_none {l : List Account} {u : Int}
    (h : l.find? (fun x => x.userId == u) = none) :
    balanceOfA l u = 0 := by
  rw [balanceOfA, h]

theorem ledgerSumL_append (l : List AccountTransaction)
    (t : AccountTransaction) (u : Int) :
    ledgerSumL (l ++ [t]) u =
      ledgerSumL l u + (if t.userId == u then t.amount else 0) := by
  rw [ledgerSumL, ledgerSumL, List.filter_append]
  by_cases ht : (t.userId == u) = true
  · simp [List.filter, ht]
  · simp [List.filter, ht]

/-- `GetOrCreate` leaves every user's readable balance unchanged (a created
row starts at zero, which is also the absent-row read). -/
theorem getOrCreate_balanceOfA (accounts : List Account) (u u' : Int) :
    balanceOfA (GetOrCreate accounts u).2 u' = balanceOfA accounts u' := by
  rw [GetOrCreate]
  cases hf : accounts.find? (fun a => a.userId == u) with
  | some a => rfl
  | none =>
    simp only []
    by_cases hu : u' = u
    · subst hu
      rw [balanceOfA, find?_append_of_none _ hf]
      simp [List.find?, balanceOfA, hf]
    · have hne : (u == u') = false := by
        rw [beq_eq_false_iff_ne]
        exact fun hh => hu hh.symm
      have hsing : (List.find? (fun a : Account => a.userId == u')
          [(⟨u, 0, 0, 0⟩ : Account)]) = none := by
        simp [List.find?, hne]
      apply balanceOfA_eq_of_find?_eq
      rw [List.find?_append, hsing, Option.or_none]

/-- `GetOrCreate` preserves key uniqueness of the account table. -/
theorem getOrCreate_nodup (accounts : List Account) (u : Int)
    (h : (accounts.map (fun x => x.userId)).Nodup) :
    ((GetOrCreate accounts u).2.map (fun x => x.userId)).Nodup := by
  rw [GetOrCreate]
  cases hf : accounts.find? (fun a => a.userId == u) with
  | some a => exact h
  | none =>
    simp only [List.map_append, List.map_cons, List.map_nil]
    rw [List.nodup_append]
    refine ⟨h, List.nodup_singleton _, ?_⟩
    intro x hx
    simp only [List.mem_singleton]
    obtain ⟨y, hy, hyx⟩ := List.mem_map.mp hx
    rw [List.find?_eq_none] at hf
    intro hxu
    exact hf y hy (by simp [hyx ▸ hxu])

/-- Successful debit: the balance delta is `-a` for the debited user and `0`
for everyone else (user-unique table). -/
theorem deduct_ok_balanceOfA (accounts : List Account) (u a v : Int)
    (l' : List Account)
    (hnodup : (accounts.map (fun x => x.userId)).Nodup)
    (h : Deduct accounts u a v = .ok l') :
    balanceOfA l' u = balanceOfA accounts u - a ∧
    ∀ u', u' ≠ u → balanceOfA l' u' = balanceOfA accounts u' := by
  obtain ⟨acc, hfind, _, _, hafter, hother⟩ :=
    deduct_ok_find accounts u a v l' hnodup h
  constructor
  · rw [balanceOfA_of_find?_some hafter, balanceOfA_of_find?_some hfind]
  · intro u' hu'
    exact balanceOfA_eq_of_find?_eq u' (hother u' hu')

/-- Successful credit: the balance delta is `+a` for the credited user and `0`
for everyone else (user-unique table). -/
theorem increase_ok_balanceOfA (accounts : List Account) (u a : Int)
    (l' : List Account)
    (hnodup : (accounts.map (fun x => x.userId)).Nodup)
    (h : Increase accounts u a = .ok l') :
    balanceOfA l' u = balanceOfA accounts u + a ∧
    ∀ u', u' ≠ u → balanceOfA l' u' = balanceOfA accounts u' := by
  obtain ⟨acc, hfind, hafter, hother⟩ :=
    increase_ok_find accounts u a l' hnodup h
  constructor
  · rw [balanceOfA_of_find?_some hafter, balanceOfA_of_find?_some hfind]
  · intro u' hu'
    exact balanceOfA_eq_of_find?_eq u' (hother u' hu')

/-- Successful debits and credits preserve key uniqueness. -/
theorem deduct_ok_nodup (accounts : List Account) (u a v : Int)
    (l' : List Account)
    (hnodup : (accounts.map (fun x => x.userId)).Nodup)
    (h : Deduct accounts u a v = .ok l') :
    (l'.map (fun x => x.userId)).Nodup := by
  obtain ⟨_, hl⟩ := deduct_ok_eq accounts u a v l' h
  have hkey := updWhere_map_key
    (fun x : Account => x.userId == u && x.balance >= a && x.version == v)
    (fun x : Account =>
      { x with balance := x.balance - a, version := x.version + 1 })
    accounts (fun x => x.userId) (fun x => rfl)
  rw [hl, hkey]
  exact hnodup

theorem increase_ok_nodup (accounts : List Account) (u a : Int)
    (l' : List Account)
    (hnodup : (accounts.map (fun x => x.userId)).Nodup)
    (h : Increase accounts u a = .ok l') :
    (l'.map (fun x => x.userId)).Nodup := by
  obtain ⟨_, hl⟩ := increase_ok_eq accounts u a l' h
  have hkey := updWhere_map_key (fun x : Account => x.userId == u)
    (fun x : Account =>
      { x with balance := x.balance + a, version := x.version + 1 })
    accounts (fun x => x.userId) (fun x => rfl)
  rw [hl, hkey]
  exact hnodup

/-- A guarded transition on a table where only the freshly appended order
matches rewrites exactly that order. -/
theorem updateStatus_fresh_append (orders : List PayOrder) (now : Int)
    (ono f t : String) (o : PayOrder)
    (hono : ∀ x ∈ orders, x.orderNo ≠ ono)
    (ho : o.orderNo = ono) (hos : o.status = f)
    (hc : CanTransitionTo f t = true) :
    UpdateStatus (orders ++ [o]) now ono f t =
      .ok (orders ++
        [{ o with
           status := t
           paidAt := if t == OrderStatusPaid then some now else o.paidAt }]) := by
  have hq : (o.orderNo == ono && o.status == f) = true := by simp [ho, hos]
  have hany : (orders ++ [o]).any
      (fun x => x.orderNo == ono && x.status == f) = true :=
    List.any_eq_true.mpr ⟨o, by simp, hq⟩
  have hself : updWhere (fun x : PayOrder => x.orderNo == ono && x.status == f)
      (fun x =>
        { x with
          status := t
          paidAt := if t == OrderStatusPaid then some now else x.paidAt })
      orders = orders := by
    apply updWhere_eq_self
    intro x hx
    have hxno : (x.orderNo == ono) = false := beq_eq_false_iff_ne.mpr (hono x hx)
    simp [hxno]
  rw [UpdateStatus]
  simp only [hc, Bool.not_true, Bool.false_eq_true, if_false, hany, if_true,
    updWhere_append, hself]
  rw [show updWhere (fun x : PayOrder => x.orderNo == ono && x.status == f)
      (fun x =>
        { x with
          status := t
          paidAt := if t == OrderStatusPaid then some now else x.paidAt })
      [o] = [if (o.orderNo == ono && o.status == f) = true then
        { o with
          status := t
          paidAt := if t == OrderStatusPaid then some now else o.paidAt }
        else o] from rfl]
  rw [if_pos hq]

/-- A pay request with a fresh request id and order number, against an
existing account with sufficient balance, runs the whole transaction (the
optimistic version check passes against the snapshot it just read) and
returns success, the PAID order, the PAY ledger row, the debit and the staged
outbox row. -/
theorem pay_success_run (db : DB) (req : PayRequest) (ono tno : String)
    (now tm : Int) (topic : String) (acc : Account)
    (hreq : db.orders.find? (fun o => o.requestId == req.requestId) = none)
    (hono : ∀ o ∈ db.orders, o.orderNo ≠ ono)
    (hacc : db.accounts.find? (fun x => x.userId == req.userId) = some acc)
    (hbal : ¬(acc.balance < req.amount)) :
    Pay db req ono tno now tm topic =
      (.ok ⟨ono, OrderStatusPaid, req.amount, "支付成功"⟩,
       ⟨updWhere
          (fun x => x.userId == req.userId && x.balance >= req.amount &&
            x.version == acc.version)
          (fun x =>
            { x with balance := x.balance - req.amount, version := x.version + 1 })
          db.accounts,
        db.orders ++
          [⟨ono, req.requestId, req.userId, req.amount, req.productType,
            req.productId, OrderStatusPaid, now + tm * 60, some now, now⟩],
        db.transactions ++
          [⟨tno, req.userId, ono, -req.amount, TransactionTypePay, acc.balance,
            acc.balance - req.amount,
            "支付-" ++ req.productType ++ "-" ++ req.productId⟩],
        db.outbox ++
          [⟨nextOutboxId db.outbox, ono, topic, payResultPayload ono,
            OutboxStatusPending, 0⟩]⟩,
       true) := by
  have haccu : (acc.userId == req.userId) = true := by
    have h := List.find?_some hacc
    exact h
  have hstep1 := updateStatus_fresh_append db.orders now ono
    OrderStatusCreated OrderStatusPaying
    ⟨ono, req.requestId, req.userId, req.amount, req.productType,
      req.productId, OrderStatusCreated, now + tm * 60, none, now⟩
    hono rfl rfl (by decide)
  have hany2 : db.accounts.any
      (fun x => x.userId == req.userId && x.balance >= req.amount &&
        x.version == acc.version) = true := by
    refine List.any_eq_true.mpr ⟨acc, List.mem_of_find?_eq_some hacc, ?_⟩
    simp only [Bool.and_eq_true, beq_iff_eq, decide_eq_true_eq, ge_iff_le]
    refine ⟨⟨by simpa using haccu, by omega⟩, by simp⟩
  have hstep2 : Deduct db.accounts req.userId req.amount acc.version =
      .ok (updWhere
        (fun x => x.userId == req.userId && x.balance >= req.amount &&
          x.version == acc.version)
        (fun x =>
          { x with balance := x.balance - req.amount, version := x.version + 1 })
        db.accounts) := by
    simp [Deduct, hany2]
  have hstep3 := updateStatus_fresh_append db.orders now ono
    OrderStatusPaying OrderStatusPaid
    ⟨ono, req.requestId, req.userId, req.amount, req.productType,
      req.productId, OrderStatusPaying, now + tm * 60, none, now⟩
    hono rfl rfl (by decide)
  rw [Pay]
  rw [show GetByRequestID db.orders req.requestId = none from hreq]
  simp only []
  rw [show GetOrCreate db.accounts req.userId = (acc, db.accounts) from by
    rw [GetOrCreate, hacc]]
  simp only [if_neg hbal]
  rw [PayTx]
  simp only []
  rw [hstep1]
  simp only []
  rw [hstep2]
  simp only []
  rw [show ({ (⟨ono, req.requestId, req.userId, req.amount, req.productType,
      req.productId, OrderStatusCreated, now + tm * 60, none, now⟩ : PayOrder)
      with
      status := OrderStatusPaying
      paidAt := if OrderStatusPaying == OrderStatusPaid then some now
                else (none : Option Int) } : PayOrder) =
    ⟨ono, req.requestId, req.userId, req.amount, req.productType,
      req.productId, OrderStatusPaying, now + tm * 60, none, now⟩ from by
    simp [OrderStatusPaying, OrderStatusPaid]]
  rw [hstep3]
  simp only []
  rw [show (if OrderStatusPaid == OrderStatusPaid then some now
      else (none : Option Int)) = some now from by simp]

/-- Inversion of a successful fresh pay: the account row existed and had
sufficient balance (with a positive amount, a freshly created account's zero
balance fails the pre-check). -/
theorem pay_ok_inv (db : DB) (req : PayRequest) (ono tno : String)
    (now tm : Int) (topic : String) (r : PayResponse)
    (hreq : db.orders.find? (fun o => o.requestId == req.requestId) = none)
    (hpos : 0 < req.amount)
    (h : (Pay db req ono tno now tm topic).1 = .ok r) :
    ∃ acc, db.accounts.find? (fun x => x.userId == req.userId) = some acc ∧
      ¬(acc.balance < req.amount) := by
  rw [Pay] at h
  rw [show GetByRequestID db.orders req.requestId = none from hreq] at h
  simp only [] at h
  cases hf : db.accounts.find? (fun x => x.userId == req.userId) with
  | none =>
    exfalso
    rw [show GetOrCreate db.accounts req.userId =
        (⟨req.userId, 0, 0, 0⟩, db.accounts ++ [⟨req.userId, 0, 0, 0⟩]) from by
      rw [GetOrCreate, hf]] at h
    simp only [] at h
    rw [if_pos (by show (0 : Int) < req.amount; omega)] at h
    simp at h
  | some acc =>
    refine ⟨acc, rfl, ?_⟩
    intro hlt
    rw [show GetOrCreate db.accounts req.userId = (acc, db.accounts) from by
      rw [GetOrCreate, hf]] at h
    simp only [] at h
    rw [if_pos hlt] at h
    simp at h

/-- C5 counterexample: an immediate replay of the same pay request returns the
same order number, status and amount, but its message field reads
"订单已存在" ("order exists") while the original pay answered "支付成功"
("payment succeeded") — the two responses are not identical. -/
theorem pay_replay_message_differs :
    (Pay ⟨[⟨1, 100, 0, 0⟩], [], [], []⟩ ⟨"R1", 1, 30, "CT", "P9"⟩
      "O1" "T1" 0 30 "tp").1 = .ok ⟨"O1", "PAID", 30, "支付成功"⟩
    ∧ (Pay (Pay ⟨[⟨1, 100, 0, 0⟩], [], [], []⟩ ⟨"R1", 1, 30, "CT", "P9"⟩
        "O1" "T1" 0 30 "tp").2.1 ⟨"R1", 1, 30, "CT", "P9"⟩
        "O2" "T2" 5 30 "tp").1 = .ok ⟨"O1", "PAID", 30, "订单已存在"⟩
    ∧ (⟨"O1", "PAID", 30, "支付成功"⟩ : PayResponse) ≠
      ⟨"O1", "PAID", 30, "订单已存在"⟩ := by
  refine ⟨rfl, rfl, ?_⟩
  decide

/-- C5 (amended): for two pay requests with an identical request_id (the
first against a fresh request id, fresh order number and sufficient balance),
exactly one order and one PAY ledger row are created and the balance is
debited exactly once; the replay returns the stored order's
{order_no, status, amount} from the unlocked pre-check without acquiring the
mutex or mutating the store — the two responses agree on order number, status
and amount but differ in the message field ("支付成功" vs "订单已存在"). -/
theorem pay_idempotent_replay (db : DB) (req : PayRequest)
    (ono tno ono2 tno2 : String) (now tm now2 tm2 : Int)
    (topic topic2 : String) (r : PayResponse)
    (hreqAll : ∀ o ∈ db.orders, o.requestId ≠ req.requestId)
    (hono : ∀ o ∈ db.orders, o.orderNo ≠ ono)
    (htno : ∀ t ∈ db.transactions, t.orderNo ≠ ono)
    (hpos : 0 < req.amount)
    (h1 : (Pay db req ono tno now tm topic).1 = .ok r) :
    r = ⟨ono, OrderStatusPaid, req.amount, "支付成功"⟩
    ∧ Pay (Pay db req ono tno now tm topic).2.1 req ono2 tno2 now2 tm2 topic2 =
        (.ok ⟨ono, OrderStatusPaid, req.amount, "订单已存在"⟩,
         (Pay db req ono tno now tm topic).2.1, false)
    ∧ ((Pay db req ono tno now tm topic).2.1.orders.filter
        (fun o => o.requestId == req.requestId)).length = 1
    ∧ ((Pay db req ono tno now tm topic).2.1.transactions.filter
        (fun t => t.orderNo == ono)).length = 1
    ∧ (∀ t ∈ (Pay db req ono tno now tm topic).2.1.transactions,
        t.orderNo = ono → t.ttype = TransactionTypePay ∧ t.amount = -req.amount)
    ∧ balanceOf (Pay db req ono tno now tm topic).2.1 req.userId =
        balanceOf db req.userId - req.amount := by
  have hreq : db.orders.find? (fun o => o.requestId == req.requestId) = none :=
    List.find?_eq_none.mpr (fun o ho => by simp [hreqAll o ho])
  obtain ⟨acc, hacc, hbal⟩ :=
    pay_ok_inv db req ono tno now tm topic r hreq hpos h1
  have haccu : (acc.userId == req.userId) = true := by
    have h := List.find?_some hacc
    exact h
  have hrun := pay_success_run db req ono tno now tm topic acc hreq hono hacc hbal
  rw [hrun] at h1
  refine ⟨(Except.ok.inj h1).symm, ?_, ?_, ?_, ?_, ?_⟩
  · rw [hrun]
    simp only []
    rw [Pay]
    rw [show GetByRequestID
        (db.orders ++
          [⟨ono, req.requestId, req.userId, req.amount, req.productType,
            req.productId, OrderStatusPaid, now + tm * 60, some now, now⟩])
        req.requestId =
        some (⟨ono, req.requestId, req.userId, req.amount, req.productType,
          req.productId, OrderStatusPaid, now + tm * 60, some now, now⟩ :
          PayOrder) from by
      rw [GetByRequestID, find?_append_of_none _ hreq]
      simp [List.find?]]
  · rw [hrun]
    simp only []
    rw [List.filter_append]
    rw [List.filter_eq_nil_iff.mpr (fun o ho => by simp [hreqAll o ho])]
    simp [List.filter]
  · rw [hrun]
    simp only []
    rw [List.filter_append]
    rw [List.filter_eq_nil_iff.mpr (fun t ht => by simp [htno t ht])]
    simp [List.filter]
  · rw [hrun]
    simp only []
    intro t ht htono
    rcases List.mem_append.mp ht with ht' | ht'
    · exact absurd htono (htno t ht')
    · rw [List.mem_singleton.mp ht']
      exact ⟨rfl, rfl⟩
  · rw [hrun]
    have hq : (acc.userId == req.userId && acc.balance >= req.amount &&
        acc.version == acc.version) = true := by
      simp only [Bool.and_eq_true, beq_iff_eq, decide_eq_true_eq, ge_iff_le]
      exact ⟨⟨by simpa using haccu, by omega⟩, by simp⟩
    have hfind2 : (updWhere
        (fun x => x.userId == req.userId && x.balance >= req.amount &&
          x.version == acc.version)
        (fun x =>
          { x with balance := x.balance - req.amount, version := x.version + 1 })
        db.accounts).find? (fun x => x.userId == req.userId) =
        some { acc with balance := acc.balance - req.amount, version := acc.version + 1 } := by
      rw [find?_updWhere _ _ _ _ (by intro x; split <;> rfl), hacc]
      rw [Option.map_some']
      rw [if_pos hq]
    show balanceOfA (updWhere
        (fun x => x.userId == req.userId && x.balance >= req.amount &&
          x.version == acc.version)
        (fun x =>
          { x with balance := x.balance - req.amount, version := x.version + 1 })
        db.accounts) req.userId = balanceOfA db.accounts req.userId - req.amount
    rw [balanceOfA_of_find?_some hfind2, balanceOfA_of_find?_some hacc]

/-- C5 witness: a concrete fresh pay followed by its replay on a one-account
store. -/
theorem pay_idempotent_replay_witness :
    Pay (Pay ⟨[⟨1, 100, 0, 0⟩], [], [], []⟩ ⟨"R1", 1, 30, "CT", "P9"⟩
        "O1" "T1" 0 30 "tp").2.1 ⟨"R1", 1, 30, "CT", "P9"⟩
        "O2" "T2" 5 30 "tp" =
      (.ok ⟨"O1", OrderStatusPaid, 30, "订单已存在"⟩,
       (Pay ⟨[⟨1, 100, 0, 0⟩], [], [], []⟩ ⟨"R1", 1, 30, "CT", "P9"⟩
         "O1" "T1" 0 30 "tp").2.1, false) :=
  (pay_idempotent_replay ⟨[⟨1, 100, 0, 0⟩], [], [], []⟩ ⟨"R1", 1, 30, "CT", "P9"⟩
    "O1" "T1" "O2" "T2" 0 30 5 30 "tp" "tp" ⟨"O1", "PAID", 30, "支付成功"⟩
    (by intro o ho; cases ho) (by intro o ho; cases ho)
    (by intro t ht; cases ht) (by decide) (by rfl)).2.1

/-- C7: for any user and amount, a successful fresh pay followed by a full
refund of the same order restores the account balance to its value before the
pay: the refund credits exactly the order's amount, which is what the pay
debited. -/
theorem refund_round_trip (db : DB) (req : PayRequest)
    (ono tno rid reason rno tno2 : String) (now tm now2 : Int)
    (topic topic2 : String) (r : PayResponse)
    (hreqAll : ∀ o ∈ db.orders, o.requestId ≠ req.requestId)
    (hono : ∀ o ∈ db.orders, o.orderNo ≠ ono)
    (htno : ∀ t ∈ db.transactions, t.orderNo ≠ ono)
    (hpos : 0 < req.amount)
    (h1 : (Pay db req ono tno now tm topic).1 = .ok r) :
    (Refund (Pay db req ono tno now tm topic).2.1 ⟨rid, ono, reason⟩ rno tno2
        now2 topic2).1 =
      .ok ⟨rno, ono, req.amount, OrderStatusRefunded, "退款成功"⟩
    ∧ balanceOf (Refund (Pay db req ono tno now tm topic).2.1
        ⟨rid, ono, reason⟩ rno tno2 now2 topic2).2.1 req.userId =
      balanceOf db req.userId := by
  have hreq : db.orders.find? (fun o => o.requestId == req.requestId) = none :=
    List.find?_eq_none.mpr (fun o ho => by simp [hreqAll o ho])
  obtain ⟨acc, hacc, hbal⟩ :=
    pay_ok_inv db req ono tno now tm topic r hreq hpos h1
  have haccu : (acc.userId == req.userId) = true := by
    have h := List.find?_some hacc
    exact h
  have hrun := pay_success_run db req ono tno now tm topic acc hreq hono hacc hbal
  have hordN : db.orders.find? (fun o => o.orderNo == ono) = none :=
    List.find?_eq_none.mpr (fun o ho => by simp [hono o ho])
  have hfO : (db.orders ++
      [(⟨ono, req.requestId, req.userId, req.amount, req.productType,
        req.productId, OrderStatusPaid, now + tm * 60, some now, now⟩ :
        PayOrder)]).find? (fun o => o.orderNo == ono) =
      some ⟨ono, req.requestId, req.userId, req.amount, req.productType,
        req.productId, OrderStatusPaid, now + tm * 60, some now, now⟩ := by
    rw [find?_append_of_none _ hordN]
    simp [List.find?]
  have htxN : db.transactions.find?
      (fun t => t.userId == req.userId && t.orderNo == ono) = none :=
    List.find?_eq_none.mpr (fun t ht => by simp [htno t ht])
  have hfT : (db.transactions ++
      [(⟨tno, req.userId, ono, -req.amount, TransactionTypePay, acc.balance,
        acc.balance - req.amount,
        "支付-" ++ req.productType ++ "-" ++ req.productId⟩ :
        AccountTransaction)]).find?
      (fun t => t.userId == req.userId && t.orderNo == ono) =
      some ⟨tno, req.userId, ono, -req.amount, TransactionTypePay, acc.balance,
        acc.balance - req.amount,
        "支付-" ++ req.productType ++ "-" ++ req.productId⟩ := by
    rw [find?_append_of_none _ htxN]
    simp [List.find?]
  have hq : (acc.userId == req.userId && acc.balance >= req.amount &&
      acc.version == acc.version) = true := by
    simp only [Bool.and_eq_true, beq_iff_eq, decide_eq_true_eq, ge_iff_le]
    exact ⟨⟨by simpa using haccu, by omega⟩, by simp⟩
  have hfacc1 : (updWhere
      (fun x => x.userId == req.userId && x.balance >= req.amount &&
        x.version == acc.version)
      (fun x =>
        { x with balance := x.balance - req.amount, version := x.version + 1 })
      db.accounts).find? (fun x => x.userId == req.userId) =
      some { acc with balance := acc.balance - req.amount, version := acc.version + 1 } := by
    rw [find?_updWhere _ _ _ _ (by intro x; split <;> rfl), hacc]
    rw [Option.map_some']
    rw [if_pos hq]
  have hany3 : (updWhere
      (fun x => x.userId == req.userId && x.balance >= req.amount &&
        x.version == acc.version)
      (fun x =>
        { x with balance := x.balance - req.amount, version := x.version + 1 })
      db.accounts).any (fun x => x.userId == req.userId) = true := by
    refine List.any_eq_true.mpr
      ⟨_, List.mem_of_find?_eq_some hfacc1, ?_⟩
    exact haccu
  have hinc : Increase (updWhere
      (fun x => x.userId == req.userId && x.balance >= req.amount &&
        x.version == acc.version)
      (fun x =>
        { x with balance := x.balance - req.amount, version := x.version + 1 })
      db.accounts) req.userId req.amount =
      .ok (updWhere (fun x => x.userId == req.userId)
        (fun x =>
          { x with balance := x.balance + req.amount, version := x.version + 1 })
        (updWhere
          (fun x => x.userId == req.userId && x.balance >= req.amount &&
            x.version == acc.version)
          (fun x =>
            { x with balance := x.balance - req.amount, version := x.version + 1 })
          db.accounts)) := by
    simp [Increase, hany3]
  have hust1 := updateStatus_fresh_append db.orders now2 ono
    OrderStatusPaid OrderStatusRefunding
    ⟨ono, req.requestId, req.userId, req.amount, req.productType,
      req.productId, OrderStatusPaid, now + tm * 60, some now, now⟩
    hono rfl rfl (by decide)
  have hust2 := updateStatus_fresh_append db.orders now2 ono
    OrderStatusRefunding OrderStatusRefunded
    ⟨ono, req.requestId, req.userId, req.amount, req.productType,
      req.productId, OrderStatusRefunding, now + tm * 60,
      if OrderStatusRefunding == OrderStatusPaid then some now2 else some now,
      now⟩
    hono rfl rfl (by decide)
  rw [hrun]
  simp only []
  rw [Refund]
  rw [show GetByOrderNo (db.orders ++
      [(⟨ono, req.requestId, req.userId, req.amount, req.productType,
        req.productId, OrderStatusPaid, now + tm * 60, some now, now⟩ :
        PayOrder)]) ono =
      .ok ⟨ono, req.requestId, req.userId, req.amount, req.productType,
        req.productId, OrderStatusPaid, now + tm * 60, some now, now⟩ from by
    rw [GetByOrderNo, hfO]]
  simp only []
  rw [if_neg (by simp)]
  rw [show GetByUserIDAndOrderNo (db.transactions ++
      [(⟨tno, req.userId, ono, -req.amount, TransactionTypePay, acc.balance,
        acc.balance - req.amount,
        "支付-" ++ req.productType ++ "-" ++ req.productId⟩ :
        AccountTransaction)]) req.userId ono =
      some ⟨tno, req.userId, ono, -req.amount, TransactionTypePay, acc.balance,
        acc.balance - req.amount,
        "支付-" ++ req.productType ++ "-" ++ req.productId⟩ from by
    rw [GetByUserIDAndOrderNo]
    exact hfT]
  simp only []
  rw [if_neg (by simp [TransactionTypePay, TransactionTypeRefund])]
  rw [RefundPostLock]
  rw [show GetByOrderNo (db.orders ++
      [(⟨ono, req.requestId, req.userId, req.amount, req.productType,
        req.productId, OrderStatusPaid, now + tm * 60, some now, now⟩ :
        PayOrder)]) ono =
      .ok ⟨ono, req.requestId, req.userId, req.amount, req.productType,
        req.productId, OrderStatusPaid, now + tm * 60, some now, now⟩ from by
    rw [GetByOrderNo, hfO]]
  simp only []
  rw [if_neg (by simp)]
  rw [RefundTx]
  simp only []
  rw [hust1]
  simp only []
  rw [show GetByUserID (updWhere
      (fun x => x.userId == req.userId && x.balance >= req.amount &&
        x.version == acc.version)
      (fun x =>
        { x with balance := x.balance - req.amount, version := x.version + 1 })
      db.accounts) req.userId =
      .ok { acc with balance := acc.balance - req.amount, version := acc.version + 1 } from by
    rw [GetByUserID, hfacc1]]
  simp only []
  rw [hinc]
  simp only []
  rw [show ({ (⟨ono, req.requestId, req.userId, req.amount, req.productType,
      req.productId, OrderStatusPaid, now + tm * 60, some now, now⟩ :
      PayOrder) with
      status := OrderStatusRefunding
      paidAt := if OrderStatusRefunding == OrderStatusPaid then some now2
                else some now } : PayOrder) =
    ⟨ono, req.requestId, req.userId, req.amount, req.productType,
      req.productId, OrderStatusRefunding, now + tm * 60,
      if OrderStatusRefunding == OrderStatusPaid then some now2 else some now,
      now⟩ from rfl]
  rw [hust2]
  simp only []
  constructor
  · trivial
  · have hfacc2 : (updWhere (fun x => x.userId == req.userId)
        (fun x =>
          { x with balance := x.balance + req.amount, version := x.version + 1 })
        (updWhere
          (fun x => x.userId == req.userId && x.balance >= req.amount &&
            x.version == acc.version)
          (fun x =>
            { x with balance := x.balance - req.amount, version := x.version + 1 })
          db.accounts)).find? (fun x => x.userId == req.userId) =
        some { acc with balance := acc.balance - req.amount + req.amount, version := acc.version + 1 + 1 } := by
      rw [find?_updWhere _ _ _ _ (by intro x; split <;> rfl), hfacc1]
      rw [Option.map_some']
      rw [if_pos (by exact haccu)]
    show balanceOfA (updWhere (fun x => x.userId == req.userId)
        (fun x =>
          { x with balance := x.balance + req.amount, version := x.version + 1 })
        (updWhere
          (fun x => x.userId == req.userId && x.balance >= req.amount &&
            x.version == acc.version)
          (fun x =>
            { x with balance := x.balance - req.amount, version := x.version + 1 })
          db.accounts)) req.userId = balanceOfA db.accounts req.userId
    rw [balanceOfA_of_find?_some hfacc2, balanceOfA_of_find?_some hacc]
    show acc.balance - req.amount + req.amount = acc.balance
    omega

/-- C7 witness: pay 30 then refund on a balance-100 account restores 100. -/
theorem refund_round_trip_witness :
    (Refund (Pay ⟨[⟨1, 100, 0, 0⟩], [], [], []⟩ ⟨"R1", 1, 30, "CT", "P9"⟩
        "O1" "T1" 0 30 "tp").2.1 ⟨"F1", "O1", "x"⟩ "REF1" "T3" 9 "tp").1 =
      .ok ⟨"REF1", "O1", 30, OrderStatusRefunded, "退款成功"⟩
    ∧ balanceOf (Refund (Pay ⟨[⟨1, 100, 0, 0⟩], [], [], []⟩
        ⟨"R1", 1, 30, "CT", "P9"⟩ "O1" "T1" 0 30 "tp").2.1
        ⟨"F1", "O1", "x"⟩ "REF1" "T3" 9 "tp").2.1 1 =
      balanceOf ⟨[⟨1, 100, 0, 0⟩], [], [], []⟩ 1 :=
  refund_round_trip ⟨[⟨1, 100, 0, 0⟩], [], [], []⟩ ⟨"R1", 1, 30, "CT", "P9"⟩
    "O1" "T1" "F1" "x" "REF1" "T3" 0 30 9 "tp" "tp"
    ⟨"O1", "PAID", 30, "支付成功"⟩
    (by intro o ho; cases ho) (by intro o ho; cases ho)
    (by intro t ht; cases ht) (by decide) (by rfl)

/-- C4 counterexample: on a store whose order O1 is already REFUNDED (with its
PAY and REFUND ledger rows present), a new refund request is rejected by the
pre-lock status check with the invalid-status error — it does not return the
refunded result, and the pre-lock ledger check is never reached. -/
theorem refund_prelock_rejects_refunded :
    Refund
      ⟨[⟨1, 100, 0, 2⟩],
       [⟨"O1", "R1", 1, 30, "CT", "P9", "REFUNDED", 1800, some 0, 0⟩],
       [⟨"T1", 1, "O1", -30, "PAY", 100, 70, ""⟩,
        ⟨"T3", 1, "O1", 30, "REFUND", 70, 100, ""⟩], []⟩
      ⟨"F2", "O1", "again"⟩ "REF2" "T4" 9 "tp" =
    (.error (.invalidOrderStatus "REFUNDED"),
     ⟨[⟨1, 100, 0, 2⟩],
      [⟨"O1", "R1", 1, 30, "CT", "P9", "REFUNDED", 1800, some 0, 0⟩],
      [⟨"T1", 1, "O1", -30, "PAY", 100, 70, ""⟩,
       ⟨"T3", 1, "O1", 30, "REFUND", 70, 100, ""⟩], []⟩, false) := rfl

/-- C4 (amended): the refunded-result replay exists at the re-check under the
mutex (RefundPostLock returns success with REFUNDED for an already-REFUNDED
order) and at the pre-lock ledger check (success with REFUNDED when the
pre-lock status is PAID and a REFUND ledger row already exists for the user
and order); but the pre-lock status check of step 1 has no REFUNDED
exception: a REFUNDED order is rejected there with the invalid-status error,
before the ledger check is reached. -/
theorem refund_idempotency_terminal_state (db : DB) (req : RefundRequest)
    (rno tno : String) (now : Int) (topic : String) (order : PayOrder)
    (hfind : db.orders.find? (fun o => o.orderNo == req.orderNo) = some order) :
    (order.status = OrderStatusRefunded →
      RefundPostLock db req rno tno now topic =
        (.ok ⟨"", order.orderNo, order.amount, OrderStatusRefunded,
          "已退款，请勿重复操作"⟩, db)
      ∧ Refund db req rno tno now topic =
        (.error (.invalidOrderStatus order.status), db, false))
    ∧ (order.status = OrderStatusPaid →
       ∀ t, db.transactions.find?
          (fun x => x.userId == order.userId && x.orderNo == req.orderNo) =
          some t →
        t.ttype = TransactionTypeRefund →
        Refund db req rno tno now topic =
          (.ok ⟨"", order.orderNo, order.amount, OrderStatusRefunded,
            "已退款，请勿重复操作"⟩, db, false)) := by
  constructor
  · intro hst
    constructor
    · rw [RefundPostLock]
      rw [show GetByOrderNo db.orders req.orderNo = .ok order from by
        rw [GetByOrderNo, hfind]]
      simp only []
      rw [if_pos (by simp [hst, OrderStatusRefunded, OrderStatusPaid])]
      rw [if_pos (by simp [hst])]
    · rw [Refund]
      rw [show GetByOrderNo db.orders req.orderNo = .ok order from by
        rw [GetByOrderNo, hfind]]
      simp only []
      rw [if_pos (by simp [hst, OrderStatusRefunded, OrderStatusPaid])]
  · intro hst t hft htt
    rw [Refund]
    rw [show GetByOrderNo db.orders req.orderNo = .ok order from by
      rw [GetByOrderNo, hfind]]
    simp only []
    rw [if_neg (by simp [hst])]
    rw [show GetByUserIDAndOrderNo db.transactions order.userId req.orderNo =
        some t from by
      rw [GetByUserIDAndOrderNo]
      exact hft]
    simp only []
    rw [if_pos (by simp [htt])]

/-- C4 witness: on the concrete refunded store, the locked re-check replays
the refunded result, and with a PAID order plus an existing REFUND row the
pre-lock ledger check replays it too. -/
theorem refund_idempotency_terminal_state_witness :
    RefundPostLock
      ⟨[⟨1, 100, 0, 2⟩],
       [⟨"O1", "R1", 1, 30, "CT", "P9", "REFUNDED", 1800, some 0, 0⟩],
       [⟨"T1", 1, "O1", -30, "PAY", 100, 70, ""⟩], []⟩
      ⟨"F2", "O1", "again"⟩ "REF2" "T4" 9 "tp" =
      (.ok ⟨"", "O1", 30, OrderStatusRefunded, "已退款，请勿重复操作"⟩,
       ⟨[⟨1, 100, 0, 2⟩],
        [⟨"O1", "R1", 1, 30, "CT", "P9", "REFUNDED", 1800, some 0, 0⟩],
        [⟨"T1", 1, "O1", -30, "PAY", 100, 70, ""⟩], []⟩)
    ∧ Refund
        ⟨[⟨1, 100, 0, 2⟩],
         [⟨"O2", "R2", 1, 30, "CT", "P9", "PAID", 1800, some 0, 0⟩],
         [⟨"T3", 1, "O2", 30, "REFUND", 70, 100, ""⟩], []⟩
        ⟨"F3", "O2", "again"⟩ "REF3" "T5" 9 "tp" =
      (.ok ⟨"", "O2", 30, OrderStatusRefunded, "已退款，请勿重复操作"⟩,
       ⟨[⟨1, 100, 0, 2⟩],
        [⟨"O2", "R2", 1, 30, "CT", "P9", "PAID", 1800, some 0, 0⟩],
        [⟨"T3", 1, "O2", 30, "REFUND", 70, 100, ""⟩], []⟩, false) := by
  constructor
  · exact (refund_idempotency_terminal_state
      ⟨[⟨1, 100, 0, 2⟩],
       [⟨"O1", "R1", 1, 30, "CT", "P9", "REFUNDED", 1800, some 0, 0⟩],
       [⟨"T1", 1, "O1", -30, "PAY", 100, 70, ""⟩], []⟩
      ⟨"F2", "O1", "again"⟩ "REF2" "T4" 9 "tp"
      ⟨"O1", "R1", 1, 30, "CT", "P9", "REFUNDED", 1800, some 0, 0⟩
      (by rfl)).1 rfl |>.1
  · exact (refund_idempotency_terminal_state
      ⟨[⟨1, 100, 0, 2⟩],
       [⟨"O2", "R2", 1, 30, "CT", "P9", "PAID", 1800, some 0, 0⟩],
       [⟨"T3", 1, "O2", 30, "REFUND", 70, 100, ""⟩], []⟩
      ⟨"F3", "O2", "again"⟩ "REF3" "T5" 9 "tp"
      ⟨"O2", "R2", 1, 30, "CT", "P9", "PAID", 1800, some 0, 0⟩
      (by rfl)).2 rfl ⟨"T3", 1, "O2", 30, "REFUND", 70, 100, ""⟩ (by rfl) rfl

/-- The pay transaction, when it commits, changes a user's balance by exactly
the amount its new ledger row records for that user, and keeps the account
table user-unique. -/
theorem payTx_ok_delta (db : DB) (account : Account) (req : PayRequest)
    (ono tno : String) (now tm : Int) (topic : String) (db2 : DB) (u : Int)
    (hnodup : (db.accounts.map (fun x => x.userId)).Nodup)
    (h : PayTx db account req ono tno now tm topic = .ok db2) :
    balanceOf db2 u - balanceOf db u = ledgerSum db2 u - ledgerSum db u
    ∧ (db2.accounts.map (fun x => x.userId)).Nodup := by
  rw [PayTx] at h
  split at h
  · exact absurd h (by simp)
  · split at h
    · exact absurd h (by simp)
    · exact absurd h (by simp)
    · exact absurd h (by simp)
    · rename_i orders1 hust1 accounts1 hded
      split at h
      · exact absurd h (by simp)
      · rename_i orders2 hust2
        injection h with h
        subst h
        obtain ⟨hbu, hbo⟩ :=
          deduct_ok_balanceOfA db.accounts req.userId req.amount
            account.version accounts1 hnodup hded
        have hnodup2 := deduct_ok_nodup db.accounts req.userId req.amount
          account.version accounts1 hnodup hded
        refine ⟨?_, hnodup2⟩
        rw [balanceOf, balanceOf, ledgerSum, ledgerSum]
        simp only []
        rw [ledgerSumL_append]
        by_cases hu : u = req.userId
        · subst hu
          rw [hbu]
          simp only [beq_self_eq_true, if_true]
          omega
        · rw [hbo u hu]
          rw [show ((⟨tno, req.userId, ono, -req.amount, TransactionTypePay,
            account.balance, account.balance - req.amount,
            "支付-" ++ req.productType ++ "-" ++ req.productId⟩ :
            AccountTransaction).userId == u) = false from
            beq_eq_false_iff_ne.mpr (fun hh => hu (hh.symm))]
          simp

/-- One pay call (any branch) changes a user's balance by exactly its ledger
delta, and keeps the account table user-unique. -/
theorem pay_delta (db : DB) (req : PayRequest) (ono tno : String)
    (now tm : Int) (topic : String) (u : Int)
    (hnodup : (db.accounts.map (fun x => x.userId)).Nodup) :
    (balanceOf (Pay db req ono tno now tm topic).2.1 u - balanceOf db u =
      ledgerSum (Pay db req ono tno now tm topic).2.1 u - ledgerSum db u)
    ∧ (((Pay db req ono tno now tm topic).2.1.accounts.map
        (fun x => x.userId)).Nodup) := by
  rw [Pay]
  cases h1 : GetByRequestID db.orders req.requestId with
  | some o =>
    simp only []
    refine ⟨?_, hnodup⟩
    show balanceOf db u - balanceOf db u = ledgerSum db u - ledgerSum db u
    omega
  | none =>
    simp only []
    cases hg : GetOrCreate db.accounts req.userId with
    | mk account accounts1 =>
      simp only []
      have haccs1 : accounts1 = (GetOrCreate db.accounts req.userId).2 := by
        rw [hg]
      have hbal1 : ∀ u', balanceOfA accounts1 u' = balanceOfA db.accounts u' := by
        intro u'
        rw [haccs1]
        exact getOrCreate_balanceOfA db.accounts req.userId u'
      have hnodup1 : (accounts1.map (fun x => x.userId)).Nodup := by
        rw [haccs1]
        exact getOrCreate_nodup db.accounts req.userId hnodup
      by_cases hb : account.balance < req.amount
      · rw [if_pos hb]
        refine ⟨?_, hnodup1⟩
        rw [balanceOf, balanceOf, ledgerSum, ledgerSum]
        simp only []
        rw [hbal1 u]
        omega
      · rw [if_neg hb]
        cases ht : PayTx { db with accounts := accounts1 } account req ono tno
            now tm topic with
        | error e =>
          refine ⟨?_, hnodup1⟩
          rw [balanceOf, balanceOf, ledgerSum, ledgerSum]
          simp only []
          rw [hbal1 u]
          omega
        | ok db2 =>
          obtain ⟨hdelta, hnd⟩ := payTx_ok_delta { db with accounts := accounts1 }
            account req ono tno now tm topic db2 u hnodup1 ht
          refine ⟨?_, hnd⟩
          rw [balanceOf, balanceOf] at hdelta ⊢
          rw [ledgerSum, ledgerSum] at hdelta ⊢
          simp only [] at hdelta
          rw [hbal1 u] at hdelta
          exact hdelta

/-- The refund transaction, when it commits, changes a user's balance by
exactly the amount its new ledger row records for that user. -/
theorem refundTx_ok_delta (db : DB) (order : PayOrder) (req : RefundRequest)
    (rno tno : String) (now : Int) (topic : String) (db2 : DB) (u : Int)
    (hnodup : (db.accounts.map (fun x => x.userId)).Nodup)
    (h : RefundTx db order req rno tno now topic = .ok db2) :
    balanceOf db2 u - balanceOf db u = ledgerSum db2 u - ledgerSum db u
    ∧ (db2.accounts.map (fun x => x.userId)).Nodup := by
  rw [RefundTx] at h
  split at h
  · exact absurd h (by simp)
  · split at h
    · exact absurd h (by simp)
    · rename_i orders1 hust1 account hget
      split at h
      · exact absurd h (by simp)
      · rename_i accounts1 hinc
        split at h
        · exact absurd h (by simp)
        · rename_i orders2 hust2
          injection h with h
          subst h
          obtain ⟨hbu, hbo⟩ := increase_ok_balanceOfA db.accounts order.userId
            order.amount accounts1 hnodup hinc
          have hnodup2 := increase_ok_nodup db.accounts order.userId
            order.amount accounts1 hnodup hinc
          refine ⟨?_, hnodup2⟩
          rw [balanceOf, balanceOf, ledgerSum, ledgerSum]
          simp only []
          rw [ledgerSumL_append]
          by_cases hu : u = order.userId
          · subst hu
            rw [hbu]
            simp only [beq_self_eq_true, if_true]
            omega
          · rw [hbo u hu]
            rw [show ((⟨tno, order.userId, req.orderNo, order.amount,
              TransactionTypeRefund, account.balance,
              account.balance + order.amount,
              "退款-" ++ rno ++ "-" ++ req.reason⟩ :
              AccountTransaction).userId == u) = false from
              beq_eq_false_iff_ne.mpr (fun hh => hu (hh.symm))]
            simp

/-- The locked refund section (any branch) changes a user's balance by
exactly its ledger delta. -/
theorem refundPostLock_delta (db : DB) (req : RefundRequest)
    (rno tno : String) (now : Int) (topic : String) (u : Int)
    (hnodup : (db.accounts.map (fun x => x.userId)).Nodup) :
    (balanceOf (RefundPostLock db req rno tno now topic).2 u - balanceOf db u =
      ledgerSum (RefundPostLock db req rno tno now topic).2 u - ledgerSum db u)
    ∧ (((RefundPostLock db req rno tno now topic).2.accounts.map
        (fun x => x.userId)).Nodup) := by
  rw [RefundPostLock]
  cases h1 : GetByOrderNo db.orders req.orderNo with
  | error e =>
    simp only []
    refine ⟨?_, hnodup⟩
    show balanceOf db u - balanceOf db u = ledgerSum db u - ledgerSum db u
    omega
  | ok order =>
    simp only []
    by_cases hs : (order.status != OrderStatusPaid) = true
    · rw [if_pos hs]
      by_cases hr : (order.status == OrderStatusRefunded) = true
      · rw [if_pos hr]
        refine ⟨?_, hnodup⟩
        show balanceOf db u - balanceOf db u = ledgerSum db u - ledgerSum db u
        omega
      · rw [if_neg hr]
        refine ⟨?_, hnodup⟩
        show balanceOf db u - balanceOf db u = ledgerSum db u - ledgerSum db u
        omega
    · rw [if_neg hs]
      cases ht : RefundTx db order req rno tno now topic with
      | error e =>
        simp only []
        refine ⟨?_, hnodup⟩
        show balanceOf db u - balanceOf db u = ledgerSum db u - ledgerSum db u
        omega
      | ok db2 =>
        simp only []
        exact refundTx_ok_delta db order req rno tno now topic db2 u hnodup ht

/-- One refund call (any branch) changes a user's balance by exactly its
ledger delta, and keeps the account table user-unique. -/
theorem refund_delta (db : DB) (req : RefundRequest) (rno tno : String)
    (now : Int) (topic : String) (u : Int)
    (hnodup : (db.accounts.map (fun x => x.userId)).Nodup) :
    (balanceOf (Refund db req rno tno now topic).2.1 u - balanceOf db u =
      ledgerSum (Refund db req rno tno now topic).2.1 u - ledgerSum db u)
    ∧ (((Refund db req rno tno now topic).2.1.accounts.map
        (fun x => x.userId)).Nodup) := by
  rw [Refund]
  cases h1 : GetByOrderNo db.orders req.orderNo with
  | error e =>
    simp only []
    refine ⟨?_, hnodup⟩
    show balanceOf db u - balanceOf db u = ledgerSum db u - ledgerSum db u
    omega
  | ok order =>
    simp only []
    by_cases hs : (order.status != OrderStatusPaid) = true
    · rw [if_pos hs]
      refine ⟨?_, hnodup⟩
      show balanceOf db u - balanceOf db u = ledgerSum db u - ledgerSum db u
      omega
    · rw [if_neg hs]
      cases h2 : GetByUserIDAndOrderNo db.transactions order.userId
          req.orderNo with
      | some t =>
        simp only []
        by_cases htt : (t.ttype == TransactionTypeRefund) = true
        · rw [if_pos htt]
          refine ⟨?_, hnodup⟩
          show balanceOf db u - balanceOf db u = ledgerSum db u - ledgerSum db u
          omega
        · rw [if_neg htt]
          exact refundPostLock_delta db req rno tno now topic u hnodup
      | none =>
        simp only []
        rw [if_neg (by simp)]
        exact refundPostLock_delta db req rno tno now topic u hnodup

/-- After `GetOrCreate` the user's row is present. -/
theorem getOrCreate_mem (accounts : List Account) (u : Int) :
    ∃ a ∈ (GetOrCreate accounts u).2, a.userId = u := by
  rw [GetOrCreate]
  cases hf : accounts.find? (fun a => a.userId == u) with
  | some a =>
    refine ⟨a, List.mem_of_find?_eq_some hf, ?_⟩
    have h := List.find?_some hf
    simpa using h
  | none =>
    exact ⟨⟨u, 0, 0, 0⟩, by simp, rfl⟩

/-- One recharge changes a user's balance by the credited amount exactly when
the amount is positive and the user matches, appends no ledger row, and keeps
the account table user-unique. -/
theorem recharge_delta (db : DB) (userId amount : Int) (u : Int)
    (hnodup : (db.accounts.map (fun x => x.userId)).Nodup) :
    (balanceOf (Recharge db userId amount).2 u - balanceOf db u =
      (if userId == u && amount > 0 then amount else 0))
    ∧ ledgerSum (Recharge db userId amount).2 u = ledgerSum db u
    ∧ (((Recharge db userId amount).2.accounts.map (fun x => x.userId)).Nodup) := by
  rw [Recharge]
  by_cases ha : amount ≤ 0
  · rw [if_pos ha]
    refine ⟨?_, rfl, hnodup⟩
    have hcf : (userId == u && decide (amount > 0)) = false := by
      have hdec : (decide (amount > 0)) = false := by
        simp only [decide_eq_false_iff_not]
        omega
      simp [hdec]
    show balanceOf db u - balanceOf db u =
      if (userId == u && decide (amount > 0)) = true then amount else 0
    rw [hcf]
    simp
  · rw [if_neg ha]
    cases hgo : GetOrCreate db.accounts userId with
    | mk account accounts1 =>
      simp only []
      have haccs1 : accounts1 = (GetOrCreate db.accounts userId).2 := by
        rw [hgo]
      have hnodup1 : (accounts1.map (fun x => x.userId)).Nodup := by
        rw [haccs1]
        exact getOrCreate_nodup db.accounts userId hnodup
      have hbal1 : ∀ u', balanceOfA accounts1 u' = balanceOfA db.accounts u' := by
        intro u'
        rw [haccs1]
        exact getOrCreate_balanceOfA db.accounts userId u'
      cases hi : Increase accounts1 userId amount with
      | error e =>
        exfalso
        obtain ⟨a, ham, hau⟩ := getOrCreate_mem db.accounts userId
        rw [← haccs1] at ham
        have hany : (accounts1.any (fun x => x.userId == userId)) = true :=
          List.any_eq_true.mpr ⟨a, ham, by simp [hau]⟩
        rw [Increase] at hi
        simp only [hany, if_true] at hi
        cases hi
      | ok accounts2 =>
        simp only []
        obtain ⟨hbu, hbo⟩ :=
          increase_ok_balanceOfA accounts1 userId amount accounts2 hnodup1 hi
        have hnodup2 :=
          increase_ok_nodup accounts1 userId amount accounts2 hnodup1 hi
        refine ⟨?_, rfl, hnodup2⟩
        have hposd : (decide (amount > 0)) = true := by
          simp only [decide_eq_true_eq]
          omega
        by_cases hu : u = userId
        · show balanceOfA accounts2 u - balanceOfA db.accounts u =
            if (userId == u && decide (amount > 0)) = true then amount else 0
          rw [if_pos (by rw [hu]; simp [hposd])]
          rw [hu, hbu, hbal1 userId]
          omega
        · show balanceOfA accounts2 u - balanceOfA db.accounts u =
            if (userId == u && decide (amount > 0)) = true then amount else 0
          rw [if_neg (by
            simp only [Bool.and_eq_true, beq_iff_eq, decide_eq_true_eq, not_and]
            intro hh
            exact absurd hh.symm hu)]
          rw [hbo u hu, hbal1 u]
          omega

theorem rechargeCredits_cons (op : SysOp) (ops : List SysOp) (u : Int) :
    rechargeCredits (op :: ops) u =
      rechargeCredits [op] u + rechargeCredits ops u := by
  simp [rechargeCredits]

/-- One system operation changes a user's balance by its ledger delta plus
its recharge credit, and preserves user-uniqueness of the account table. -/
theorem applySysOp_delta (db : DB) (op : SysOp) (u : Int)
    (hnodup : (db.accounts.map (fun x => x.userId)).Nodup) :
    (balanceOf (applySysOp db op) u - balanceOf db u =
      (ledgerSum (applySysOp db op) u - ledgerSum db u) +
      rechargeCredits [op] u)
    ∧ (((applySysOp db op).accounts.map (fun x => x.userId)).Nodup) := by
  cases op with
  | payOp req ono tno now tm topic =>
    obtain ⟨hd, hn⟩ := pay_delta db req ono tno now tm topic u hnodup
    refine ⟨?_, hn⟩
    have hz : rechargeCredits [SysOp.payOp req ono tno now tm topic] u = 0 := by
      simp [rechargeCredits]
    rw [show applySysOp db (SysOp.payOp req ono tno now tm topic) =
      (Pay db req ono tno now tm topic).2.1 from rfl, hz]
    omega
  | refundOp req rno tno now topic =>
    obtain ⟨hd, hn⟩ := refund_delta db req rno tno now topic u hnodup
    refine ⟨?_, hn⟩
    have hz : rechargeCredits [SysOp.refundOp req rno tno now topic] u = 0 := by
      simp [rechargeCredits]
    rw [show applySysOp db (SysOp.refundOp req rno tno now topic) =
      (Refund db req rno tno now topic).2.1 from rfl, hz]
    omega
  | rechargeOp userId amount =>
    obtain ⟨hd, hl, hn⟩ := recharge_delta db userId amount u hnodup
    refine ⟨?_, hn⟩
    have hz : rechargeCredits [SysOp.rechargeOp userId amount] u =
        (if userId == u && amount > 0 then amount else 0) := by
      simp [rechargeCredits]
    rw [show applySysOp db (SysOp.rechargeOp userId amount) =
      (Recharge db userId amount).2 from rfl, hz, hl]
    omega

/-- C1 counterexample: against the empty store, a recharge of 100 for user 7
leaves balance 100 but an empty ledger, so the claimed equation
`balance = initial + Σ ledger.amount` fails after the recharge — the recharge
operation appends no ledger row for its credit. -/
theorem recharge_breaks_money_conservation :
    balanceOf (Recharge ⟨[], [], [], []⟩ 7 100).2 7 = 100
    ∧ ledgerSum (Recharge ⟨[], [], [], []⟩ 7 100).2 7 = 0
    ∧ balanceOf (Recharge ⟨[], [], [], []⟩ 7 100).2 7 ≠
        balanceOf (⟨[], [], [], []⟩ : DB) 7 +
        (ledgerSum (Recharge ⟨[], [], [], []⟩ 7 100).2 7 -
          ledgerSum (⟨[], [], [], []⟩ : DB) 7) := by
  refine ⟨rfl, rfl, ?_⟩
  decide

/-- C1 (amended): for every user and every sequence of pay, refund and
recharge operations on a user-unique account table, the balance delta equals
the ledger delta plus the sum of the successful recharge credits: pay and
refund accompany every balance mutation with exactly one ledger row, while
recharge mutates the balance without appending one, so the claimed equation
holds exactly on sequences whose recharges contribute nothing. -/
theorem money_conservation_with_recharge_leak (db0 : DB) (ops : List SysOp)
    (u : Int) (hnodup : (db0.accounts.map (fun x => x.userId)).Nodup) :
    balanceOf (applySysOps db0 ops) u - balanceOf db0 u =
      (ledgerSum (applySysOps db0 ops) u - ledgerSum db0 u) +
      rechargeCredits ops u := by
  induction ops generalizing db0 with
  | nil =>
    simp [applySysOps, rechargeCredits]
  | cons op rest ih =>
    obtain ⟨hd, hn⟩ := applySysOp_delta db0 op u hnodup
    have hrest := ih (applySysOp db0 op) hn
    have hsteps : applySysOps db0 (op :: rest) =
        applySysOps (applySysOp db0 op) rest := by
      simp [applySysOps]
    rw [hsteps, rechargeCredits_cons]
    omega

/-- C1 witness: a pay, its refund and a recharge on a one-account store. -/
theorem money_conservation_with_recharge_leak_witness :
    balanceOf (applySysOps ⟨[⟨1, 100, 0, 0⟩], [], [], []⟩
        [.payOp ⟨"R1", 1, 30, "CT", "P9"⟩ "O1" "T1" 0 30 "tp",
         .refundOp ⟨"F1", "O1", "x"⟩ "REF1" "T3" 9 "tp",
         .rechargeOp 1 50]) 1 -
      balanceOf ⟨[⟨1, 100, 0, 0⟩], [], [], []⟩ 1 =
      (ledgerSum (applySysOps ⟨[⟨1, 100, 0, 0⟩], [], [], []⟩
          [.payOp ⟨"R1", 1, 30, "CT", "P9"⟩ "O1" "T1" 0 30 "tp",
           .refundOp ⟨"F1", "O1", "x"⟩ "REF1" "T3" 9 "tp",
           .rechargeOp 1 50]) 1 -
        ledgerSum ⟨[⟨1, 100, 0, 0⟩], [], [], []⟩ 1) +
      rechargeCredits [.payOp ⟨"R1", 1, 30, "CT", "P9"⟩ "O1" "T1" 0 30 "tp",
        .refundOp ⟨"F1", "O1", "x"⟩ "REF1" "T3" 9 "tp",
        .rechargeOp 1 50] 1 :=
  money_conservation_with_recharge_leak ⟨[⟨1, 100, 0, 0⟩], [], [], []⟩
    [.payOp ⟨"R1", 1, 30, "CT", "P9"⟩ "O1" "T1" 0 30 "tp",
     .refundOp ⟨"F1", "O1", "x"⟩ "REF1" "T3" 9 "tp",
     .rechargeOp 1 50] 1 (by decide)
